import Mathlib

/-!
Verification of the stream-resolution / caching / proxy core of
`server_ultra.py` (LagaBox).  Python values are shallowly embedded:

* byte strings are `List Nat` (each element `< 256`), Python `str` is `String`;
* Python dicts used as caches are association lists (`dictGet` / `dictSet`);
* `time.time()` and measured millisecond durations are `Int` parameters;
* network effects are oracle parameters describing what the network returned,
  and every outgoing request is recorded in an explicit call log.
-/

/- ------------------------------------------------------------------ -/
/- Python dict model (string-keyed, insertion order preserved)         -/
/- ------------------------------------------------------------------ -/

/-- Model of Python `d.get(k)` / `k in d` on a string-keyed dict. -/
def dictGet {α : Type} : List (String × α) → String → Option α
  | [], _ => none
  | (k', v') :: rest, k => if k' = k then some v' else dictGet rest k

/-- Model of Python `d[k] = v`: replace in place, or append a new key. -/
def dictSet {α : Type} : List (String × α) → String → α → List (String × α)
  | [], k, v => [(k, v)]
  | (k', v') :: rest, k, v =>
    if k' = k then (k, v) :: rest else (k', v') :: dictSet rest k v

theorem dictGet_dictSet_self {α : Type} (m : List (String × α)) (k : String) (v : α) :
    dictGet (dictSet m k v) k = some v := by
  induction m with
  | nil => simp [dictGet, dictSet]
  | cons hd tl ih =>
    obtain ⟨k', v'⟩ := hd
    by_cases h : k' = k
    · simp [dictGet, dictSet, h]
    · simp [dictGet, dictSet, h, ih]

theorem dictGet_dictSet_ne {α : Type} (m : List (String × α)) (k k' : String) (v : α)
    (h : k ≠ k') : dictGet (dictSet m k v) k' = dictGet m k' := by
  induction m with
  | nil => simp [dictGet, dictSet, h]
  | cons hd tl ih =>
    obtain ⟨k0, v0⟩ := hd
    by_cases h0 : k0 = k
    · subst h0
      simp [dictGet, dictSet, h]
    · simp only [dictSet, if_neg h0]
      by_cases h1 : k0 = k'
      · simp [dictGet, h1]
      · simp [dictGet, h1, ih]

theorem dictGet_dictSet_isSome {α : Type} (m : List (String × α)) (k k' : String) (v : α)
    (h : (dictGet m k').isSome) : (dictGet (dictSet m k v) k').isSome := by
  by_cases hk : k = k'
  · subst hk
    simp [dictGet_dictSet_self]
  · rwa [dictGet_dictSet_ne m k k' v hk]

/- ------------------------------------------------------------------ -/
/- Opaque URL codec: `b64_encode` / `b64_decode` (server_ultra.py      -/
/- lines 266-270), i.e. `base64.urlsafe_b64encode(s.encode())` and its -/
/- inverse.  Modelled over UTF-8 byte lists.                           -/
/- ------------------------------------------------------------------ -/

/-- Character code of the RFC 4648 URL-safe base64 alphabet at index `n`
(`A-Z`, `a-z`, `0-9`, `-`, `_`), as used by `base64.urlsafe_b64encode`. -/
def sextetCode (n : Nat) : Nat :=
  if n < 26 then 65 + n
  else if n < 52 then 97 + (n - 26)
  else if n < 62 then 48 + (n - 52)
  else if n = 62 then 45
  else 95

/-- Membership test for the URL-safe base64 alphabet. -/
def isB64Code (c : Nat) : Bool :=
  (65 ≤ c && c ≤ 90) || (97 ≤ c && c ≤ 122) || (48 ≤ c && c ≤ 57) || c == 45 || c == 95

/-- Index of a character code in the URL-safe base64 alphabet. -/
def codeSextet (c : Nat) : Nat :=
  if 65 ≤ c && c ≤ 90 then c - 65
  else if 97 ≤ c && c ≤ 122 then 26 + (c - 97)
  else if 48 ≤ c && c ≤ 57 then 52 + (c - 48)
  else if c == 45 then 62
  else 63

/-- `base64.urlsafe_b64encode` on a byte list, producing character codes
(61 is the padding character `=`). -/
def b64EncodeBytes : List Nat → List Nat
  | b1 :: b2 :: b3 :: rest =>
    sextetCode (b1 / 4) :: sextetCode (b1 % 4 * 16 + b2 / 16) ::
      sextetCode (b2 % 16 * 4 + b3 / 64) :: sextetCode (b3 % 64) :: b64EncodeBytes rest
  | [b1, b2] => [sextetCode (b1 / 4), sextetCode (b1 % 4 * 16 + b2 / 16), sextetCode (b2 % 16 * 4), 61]
  | [b1] => [sextetCode (b1 / 4), sextetCode (b1 % 4 * 16), 61, 61]
  | [] => []

/-- `base64.urlsafe_b64decode` on a list of character codes; `none` models the
`binascii.Error` raised on malformed input (bad length or bad padding). -/
def b64DecodeBytes : List Nat → Option (List Nat)
  | [] => some []
  | c1 :: c2 :: c3 :: c4 :: rest =>
    if isB64Code c1 && isB64Code c2 then
      if c3 == 61 && c4 == 61 then
        if rest.isEmpty then some [codeSextet c1 * 4 + codeSextet c2 / 16] else none
      else if isB64Code c3 && c4 == 61 then
        if rest.isEmpty then
          some [codeSextet c1 * 4 + codeSextet c2 / 16,
                codeSextet c2 % 16 * 16 + codeSextet c3 / 4]
        else none
      else if isB64Code c3 && isB64Code c4 then
        (b64DecodeBytes rest).map (fun tail =>
          (codeSextet c1 * 4 + codeSextet c2 / 16) ::
            (codeSextet c2 % 16 * 16 + codeSextet c3 / 4) ::
            (codeSextet c3 % 4 * 64 + codeSextet c4) :: tail)
      else none
    else none
  | _ => none

/-- UTF-8 encoding of one Unicode code point (Python `str.encode()`),
as a list of byte values. -/
def utf8EncodeCharNat (n : Nat) : List Nat :=
  if n < 128 then [n]
  else if n < 2048 then [192 + n / 64, 128 + n % 64]
  else if n < 65536 then [224 + n / 4096, 128 + n / 64 % 64, 128 + n % 64]
  else [240 + n / 262144, 128 + n / 4096 % 64, 128 + n / 64 % 64, 128 + n % 64]

/-- UTF-8 byte sequence of a string (Python `s.encode()`). -/
def strBytes (s : String) : List Nat :=
  s.data.flatMap (fun c => utf8EncodeCharNat c.toNat)

/-- One step of strict UTF-8 decoding (Python `bytes.decode()`): reads one
code point off the front of the byte list, or fails on a malformed prefix. -/
def utf8DecodeOne : List Nat → Option (Nat × List Nat)
  | [] => none
  | b :: rest =>
    if b < 128 then some (b, rest)
    else if b < 192 then none
    else if b < 224 then
      match rest with
      | b2 :: rest2 =>
        if 128 ≤ b2 && b2 < 192 then some ((b - 192) * 64 + (b2 - 128), rest2) else none
      | [] => none
    else if b < 240 then
      match rest with
      | b2 :: b3 :: rest2 =>
        if (128 ≤ b2 && b2 < 192) && (128 ≤ b3 && b3 < 192) then
          some ((b - 224) * 4096 + (b2 - 128) * 64 + (b3 - 128), rest2)
        else none
      | _ => none
    else if b < 248 then
      match rest with
      | b2 :: b3 :: b4 :: rest2 =>
        if (128 ≤ b2 && b2 < 192) && ((128 ≤ b3 && b3 < 192) && (128 ≤ b4 && b4 < 192)) then
          some ((b - 240) * 262144 + (b2 - 128) * 4096 + (b3 - 128) * 64 + (b4 - 128), rest2)
        else none
      | _ => none
    else none

theorem utf8DecodeOne_shrink (l : List Nat) (n : Nat) (rest : List Nat)
    (h : utf8DecodeOne l = some (n, rest)) : rest.length < l.length := by
  match l with
  | [] => simp [utf8DecodeOne] at h
  | b :: r =>
    simp only [utf8DecodeOne] at h
    repeat' split at h
    all_goals simp_all
    all_goals omega

/-- UTF-8 decoding of a whole byte list back to code points (Python
`bytes.decode()`); `none` models `UnicodeDecodeError`. -/
def utf8DecodeBytes (l : List Nat) : Option (List Nat) :=
  match hl : utf8DecodeOne l with
  | none => if l.isEmpty then some [] else none
  | some (n, rest) =>
    have : rest.length < l.length := utf8DecodeOne_shrink l n rest hl
    (utf8DecodeBytes rest).map (fun t => n :: t)
termination_by l.length

theorem utf8DecodeBytes_nil : utf8DecodeBytes [] = some [] := by
  rw [utf8DecodeBytes]
  split
  · rfl
  · rename_i n rest heq
    simp [utf8DecodeOne] at heq

theorem utf8DecodeBytes_eq_some (l : List Nat) (n : Nat) (rest : List Nat)
    (h : utf8DecodeOne l = some (n, rest)) :
    utf8DecodeBytes l = (utf8DecodeBytes rest).map (fun t => n :: t) := by
  rw [utf8DecodeBytes]
  split
  · rename_i heq
    rw [h] at heq
    cases heq
  · rename_i n' rest' heq
    rw [h] at heq
    injection heq with heq'
    injection heq' with h1 h2
    subst h1
    subst h2
    rfl

/-- `b64_encode` from server_ultra.py line 266:
`base64.urlsafe_b64encode(s.encode()).decode()`. -/
def b64_encode (s : String) : String :=
  String.mk ((b64EncodeBytes (strBytes s)).map Char.ofNat)

/-- `b64_decode` from server_ultra.py line 269:
`base64.urlsafe_b64decode(s.encode()).decode()`; `none` models the
exception raised on malformed input. -/
def b64_decode (s : String) : Option String :=
  (b64DecodeBytes (s.data.map Char.toNat)).bind (fun bytes =>
    (utf8DecodeBytes bytes).map (fun cps => String.mk (cps.map Char.ofNat)))

/-- RFC 3986 `pchar` test: characters that need no percent-escaping inside a
URL path segment (unreserved, sub-delims, `:` and `@`). -/
def isPcharCode (c : Nat) : Bool :=
  (48 ≤ c && c ≤ 57) || (65 ≤ c && c ≤ 90) || (97 ≤ c && c ≤ 122) ||
    c == 45 || c == 46 || c == 95 || c == 126 ||
    c == 33 || c == 36 || c == 38 || c == 39 || c == 40 || c == 41 ||
    c == 42 || c == 43 || c == 44 || c == 59 || c == 61 ||
    c == 58 || c == 64

/-- A character is URL-path-segment safe when its code point is a `pchar`. -/
def isPchar (c : Char) : Bool :=
  isPcharCode c.toNat

/- ------------------------------------------------------------------ -/
/- Round-trip proof for the codec                                      -/
/- ------------------------------------------------------------------ -/

theorem byteChunks_induction {motive : List Nat → Prop} (h0 : motive []) (h1 : ∀ a, motive [a])
    (h2 : ∀ a b, motive [a, b]) (h3 : ∀ a b c l, motive l → motive (a :: b :: c :: l)) :
    ∀ l, motive l
  | [] => h0
  | [a] => h1 a
  | [a, b] => h2 a b
  | a :: b :: c :: l => h3 a b c l (byteChunks_induction h0 h1 h2 h3 l)

theorem codeSextet_sextetCode : ∀ n, n < 64 → codeSextet (sextetCode n) = n := by decide

theorem isB64Code_sextetCode : ∀ n, n < 64 → isB64Code (sextetCode n) = true := by decide

theorem sextetCode_beq_61 : ∀ n, n < 64 → (sextetCode n == 61) = false := by decide

theorem isPcharCode_sextetCode : ∀ n, n < 64 → isPcharCode (sextetCode n) = true := by decide

theorem sextetCode_lt_123 : ∀ n, n < 64 → sextetCode n < 123 := by decide

theorem b64Decode_pad2 (c1 c2 : Nat) (h1 : isB64Code c1 = true) (h2 : isB64Code c2 = true) :
    b64DecodeBytes [c1, c2, 61, 61] = some [codeSextet c1 * 4 + codeSextet c2 / 16] := by
  simp [b64DecodeBytes, h1, h2]

theorem b64Decode_pad1 (c1 c2 c3 : Nat) (h1 : isB64Code c1 = true) (h2 : isB64Code c2 = true)
    (h3 : isB64Code c3 = true) (n3 : (c3 == 61) = false) :
    b64DecodeBytes [c1, c2, c3, 61] =
      some [codeSextet c1 * 4 + codeSextet c2 / 16,
            codeSextet c2 % 16 * 16 + codeSextet c3 / 4] := by
  simp [b64DecodeBytes, h1, h2, h3, n3]

theorem b64Decode_chunk (c1 c2 c3 c4 : Nat) (rest : List Nat)
    (h1 : isB64Code c1 = true) (h2 : isB64Code c2 = true) (h3 : isB64Code c3 = true)
    (h4 : isB64Code c4 = true) (n3 : (c3 == 61) = false) (n4 : (c4 == 61) = false) :
    b64DecodeBytes (c1 :: c2 :: c3 :: c4 :: rest) =
      (b64DecodeBytes rest).map (fun tail =>
        (codeSextet c1 * 4 + codeSextet c2 / 16) ::
          (codeSextet c2 % 16 * 16 + codeSextet c3 / 4) ::
          (codeSextet c3 % 4 * 64 + codeSextet c4) :: tail) := by
  simp [b64DecodeBytes, h1, h2, h3, h4, n3, n4]

theorem b64DecodeBytes_b64EncodeBytes (l : List Nat) (hl : ∀ b ∈ l, b < 256) :
    b64DecodeBytes (b64EncodeBytes l) = some l := by
  induction l using byteChunks_induction with
  | h0 => simp [b64EncodeBytes, b64DecodeBytes]
  | h1 a =>
    have ha : a < 256 := hl a (by simp)
    have h1 : a / 4 < 64 := by omega
    have h2 : a % 4 * 16 < 64 := by omega
    rw [show b64EncodeBytes [a] =
        [sextetCode (a / 4), sextetCode (a % 4 * 16), 61, 61] from rfl,
      b64Decode_pad2 _ _ (isB64Code_sextetCode _ h1) (isB64Code_sextetCode _ h2),
      codeSextet_sextetCode _ h1, codeSextet_sextetCode _ h2]
    have e : a / 4 * 4 + a % 4 * 16 / 16 = a := by omega
    rw [e]
  | h2 a b =>
    have ha : a < 256 := hl a (by simp)
    have hb : b < 256 := hl b (by simp)
    have h1 : a / 4 < 64 := by omega
    have h2 : a % 4 * 16 + b / 16 < 64 := by omega
    have h3 : b % 16 * 4 < 64 := by omega
    rw [show b64EncodeBytes [a, b] =
        [sextetCode (a / 4), sextetCode (a % 4 * 16 + b / 16), sextetCode (b % 16 * 4), 61] from rfl,
      b64Decode_pad1 _ _ _ (isB64Code_sextetCode _ h1) (isB64Code_sextetCode _ h2)
        (isB64Code_sextetCode _ h3) (sextetCode_beq_61 _ h3),
      codeSextet_sextetCode _ h1, codeSextet_sextetCode _ h2, codeSextet_sextetCode _ h3]
    have e1 : a / 4 * 4 + (a % 4 * 16 + b / 16) / 16 = a := by omega
    have e2 : (a % 4 * 16 + b / 16) % 16 * 16 + b % 16 * 4 / 4 = b := by omega
    rw [e1, e2]
  | h3 a b c l ih =>
    have ha : a < 256 := hl a (by simp)
    have hb : b < 256 := hl b (by simp)
    have hc : c < 256 := hl c (by simp)
    have hrest : ∀ x ∈ l, x < 256 := fun x hx => hl x (by simp [hx])
    have h1 : a / 4 < 64 := by omega
    have h2 : a % 4 * 16 + b / 16 < 64 := by omega
    have h3 : b % 16 * 4 + c / 64 < 64 := by omega
    have h4 : c % 64 < 64 := by omega
    rw [show b64EncodeBytes (a :: b :: c :: l) =
        sextetCode (a / 4) :: sextetCode (a % 4 * 16 + b / 16) ::
          sextetCode (b % 16 * 4 + c / 64) :: sextetCode (c % 64) :: b64EncodeBytes l from rfl,
      b64Decode_chunk _ _ _ _ _ (isB64Code_sextetCode _ h1) (isB64Code_sextetCode _ h2)
        (isB64Code_sextetCode _ h3) (isB64Code_sextetCode _ h4)
        (sextetCode_beq_61 _ h3) (sextetCode_beq_61 _ h4),
      ih hrest]
    simp only [Option.map_some', codeSextet_sextetCode _ h1, codeSextet_sextetCode _ h2,
      codeSextet_sextetCode _ h3, codeSextet_sextetCode _ h4]
    have e1 : a / 4 * 4 + (a % 4 * 16 + b / 16) / 16 = a := by omega
    have e2 : (a % 4 * 16 + b / 16) % 16 * 16 + (b % 16 * 4 + c / 64) / 4 = b := by omega
    have e3 : (b % 16 * 4 + c / 64) % 4 * 64 + c % 64 = c := by omega
    rw [e1, e2, e3]

theorem b64EncodeBytes_mem (l : List Nat) (hl : ∀ b ∈ l, b < 256) :
    ∀ c ∈ b64EncodeBytes l, isPcharCode c = true ∧ c < 123 := by
  induction l using byteChunks_induction with
  | h0 => intro c hc; simp [b64EncodeBytes] at hc
  | h1 a =>
    have ha : a < 256 := hl a (by simp)
    have h1 : a / 4 < 64 := by omega
    have h2 : a % 4 * 16 < 64 := by omega
    intro c hc
    simp only [b64EncodeBytes, List.mem_cons, List.not_mem_nil, or_false] at hc
    rcases hc with rfl | rfl | rfl | rfl
    · exact ⟨isPcharCode_sextetCode _ h1, sextetCode_lt_123 _ h1⟩
    · exact ⟨isPcharCode_sextetCode _ h2, sextetCode_lt_123 _ h2⟩
    · exact ⟨by decide, by decide⟩
    · exact ⟨by decide, by decide⟩
  | h2 a b =>
    have ha : a < 256 := hl a (by simp)
    have hb : b < 256 := hl b (by simp)
    have h1 : a / 4 < 64 := by omega
    have h2 : a % 4 * 16 + b / 16 < 64 := by omega
    have h3 : b % 16 * 4 < 64 := by omega
    intro c hc
    simp only [b64EncodeBytes, List.mem_cons, List.not_mem_nil, or_false] at hc
    rcases hc with rfl | rfl | rfl | rfl
    · exact ⟨isPcharCode_sextetCode _ h1, sextetCode_lt_123 _ h1⟩
    · exact ⟨isPcharCode_sextetCode _ h2, sextetCode_lt_123 _ h2⟩
    · exact ⟨isPcharCode_sextetCode _ h3, sextetCode_lt_123 _ h3⟩
    · exact ⟨by decide, by decide⟩
  | h3 a b c l ih =>
    have ha : a < 256 := hl a (by simp)
    have hb : b < 256 := hl b (by simp)
    have hc' : c < 256 := hl c (by simp)
    have hrest : ∀ x ∈ l, x < 256 := fun x hx => hl x (by simp [hx])
    have h1 : a / 4 < 64 := by omega
    have h2 : a % 4 * 16 + b / 16 < 64 := by omega
    have h3 : b % 16 * 4 + c / 64 < 64 := by omega
    have h4 : c % 64 < 64 := by omega
    intro x hx
    simp only [b64EncodeBytes, List.mem_cons] at hx
    rcases hx with rfl | rfl | rfl | rfl | h
    · exact ⟨isPcharCode_sextetCode _ h1, sextetCode_lt_123 _ h1⟩
    · exact ⟨isPcharCode_sextetCode _ h2, sextetCode_lt_123 _ h2⟩
    · exact ⟨isPcharCode_sextetCode _ h3, sextetCode_lt_123 _ h3⟩
    · exact ⟨isPcharCode_sextetCode _ h4, sextetCode_lt_123 _ h4⟩
    · exact ih hrest x h

theorem char_toNat_ofNat_valid (n : Nat) (h : n < 55296) : (Char.ofNat n).toNat = n := by
  have hv : n.isValidChar := Or.inl h
  rw [Char.ofNat, dif_pos hv]
  simp [Char.ofNatAux, Char.toNat, UInt32.toNat]

theorem char_toNat_lt (c : Char) : c.toNat < 1114112 := by
  rcases c.valid with h | h
  · exact Nat.lt_trans h (by decide)
  · exact h.2

theorem utf8EncodeCharNat_mem (n : Nat) (hn : n < 1114112) :
    ∀ b ∈ utf8EncodeCharNat n, b < 256 := by
  intro b hb
  unfold utf8EncodeCharNat at hb
  split at hb
  · simp at hb; omega
  · split at hb
    · simp at hb
      rcases hb with rfl | rfl <;> omega
    · split at hb
      · simp at hb
        rcases hb with rfl | rfl | rfl <;> omega
      · simp at hb
        rcases hb with rfl | rfl | rfl | rfl <;> omega

theorem strBytes_lt (s : String) : ∀ b ∈ strBytes s, b < 256 := by
  intro b hb
  simp only [strBytes, List.mem_flatMap] at hb
  obtain ⟨c, _, hbc⟩ := hb
  exact utf8EncodeCharNat_mem c.toNat (char_toNat_lt c) b hbc

theorem utf8DecodeOne_encode (n : Nat) (hn : n < 1114112) (rest : List Nat) :
    utf8DecodeOne (utf8EncodeCharNat n ++ rest) = some (n, rest) := by
  unfold utf8EncodeCharNat
  split
  · rename_i h
    simp only [List.cons_append, List.nil_append, utf8DecodeOne]
    rw [if_pos h]
  · split
    · rename_i h1 h2
      simp only [List.cons_append, List.nil_append, utf8DecodeOne]
      have e1 : ¬ (192 + n / 64 < 128) := by omega
      have e2 : ¬ (192 + n / 64 < 192) := by omega
      have e3 : 192 + n / 64 < 224 := by omega
      rw [if_neg e1, if_neg e2, if_pos e3]
      have e4 : (128 ≤ 128 + n % 64 && 128 + n % 64 < 192) = true := by
        simp only [Bool.and_eq_true, decide_eq_true_eq]
        omega
      rw [if_pos e4]
      have e5 : (192 + n / 64 - 192) * 64 + (128 + n % 64 - 128) = n := by omega
      rw [e5]
    · split
      · rename_i h1 h2 h3
        simp only [List.cons_append, List.nil_append, utf8DecodeOne]
        have e1 : ¬ (224 + n / 4096 < 128) := by omega
        have e2 : ¬ (224 + n / 4096 < 192) := by omega
        have e3 : ¬ (224 + n / 4096 < 224) := by omega
        have e4 : 224 + n / 4096 < 240 := by omega
        rw [if_neg e1, if_neg e2, if_neg e3, if_pos e4]
        have e5 : ((128 ≤ 128 + n / 64 % 64 && 128 + n / 64 % 64 < 192) &&
            (128 ≤ 128 + n % 64 && 128 + n % 64 < 192)) = true := by
          simp only [Bool.and_eq_true, decide_eq_true_eq]
          omega
        rw [if_pos e5]
        have e6 : (224 + n / 4096 - 224) * 4096 + (128 + n / 64 % 64 - 128) * 64 +
            (128 + n % 64 - 128) = n := by omega
        rw [e6]
      · rename_i h1 h2 h3
        simp only [List.cons_append, List.nil_append, utf8DecodeOne]
        have e1 : ¬ (240 + n / 262144 < 128) := by omega
        have e2 : ¬ (240 + n / 262144 < 192) := by omega
        have e3 : ¬ (240 + n / 262144 < 224) := by omega
        have e4 : ¬ (240 + n / 262144 < 240) := by omega
        have e5 : 240 + n / 262144 < 248 := by omega
        rw [if_neg e1, if_neg e2, if_neg e3, if_neg e4, if_pos e5]
        have e6 : ((128 ≤ 128 + n / 4096 % 64 && 128 + n / 4096 % 64 < 192) &&
            ((128 ≤ 128 + n / 64 % 64 && 128 + n / 64 % 64 < 192) &&
              (128 ≤ 128 + n % 64 && 128 + n % 64 < 192))) = true := by
          simp only [Bool.and_eq_true, decide_eq_true_eq]
          omega
        rw [if_pos e6]
        have e7 : (240 + n / 262144 - 240) * 262144 + (128 + n / 4096 % 64 - 128) * 4096 +
            (128 + n / 64 % 64 - 128) * 64 + (128 + n % 64 - 128) = n := by omega
        rw [e7]

theorem utf8DecodeBytes_step (n : Nat) (hn : n < 1114112) (rest : List Nat) :
    utf8DecodeBytes (utf8EncodeCharNat n ++ rest) =
      (utf8DecodeBytes rest).map (fun t => n :: t) :=
  utf8DecodeBytes_eq_some _ _ _ (utf8DecodeOne_encode n hn rest)

theorem utf8DecodeBytes_strBytes (s : String) :
    utf8DecodeBytes (strBytes s) = some (s.data.map Char.toNat) := by
  suffices h : ∀ l : List Char, utf8DecodeBytes (l.flatMap (fun c => utf8EncodeCharNat c.toNat)) =
      some (l.map Char.toNat) by
    exact h s.data
  intro l
  induction l with
  | nil => simpa using utf8DecodeBytes_nil
  | cons c rest ih =>
    simp only [List.flatMap_cons, List.map_cons]
    rw [utf8DecodeBytes_step c.toNat (char_toNat_lt c), ih]
    rfl

theorem map_toNat_map_ofNat (codes : List Nat) (h : ∀ c ∈ codes, c < 123) :
    (codes.map Char.ofNat).map Char.toNat = codes := by
  induction codes with
  | nil => rfl
  | cons c rest ih =>
    have hc : c < 55296 := by
      have := h c (by simp)
      omega
    simp only [List.map_cons, char_toNat_ofNat_valid c hc]
    rw [ih (fun x hx => h x (by simp [hx]))]

/-- Claim C1: for every pair of strings (upstream URL, referer), the opaque
codec round-trips losslessly — `b64_decode (b64_encode u) = u` and likewise
for the referer — and every character of the encoded token needs no escaping
inside a URL path segment (RFC 3986 `pchar`). -/
theorem b64_roundtrip_pathsafe (u r : String) :
    b64_decode (b64_encode u) = some u ∧ b64_decode (b64_encode r) = some r ∧
      (∀ c ∈ (b64_encode u).data, isPchar c = true) ∧
      (∀ c ∈ (b64_encode r).data, isPchar c = true) := by
  have main : ∀ s : String, b64_decode (b64_encode s) = some s := by
    intro s
    unfold b64_decode b64_encode
    have hdata : (String.mk ((b64EncodeBytes (strBytes s)).map Char.ofNat)).data =
        (b64EncodeBytes (strBytes s)).map Char.ofNat := rfl
    rw [hdata, map_toNat_map_ofNat _ (fun c hc => (b64EncodeBytes_mem _ (strBytes_lt s) c hc).2),
      b64DecodeBytes_b64EncodeBytes _ (strBytes_lt s)]
    simp only [Option.some_bind]
    rw [utf8DecodeBytes_strBytes s]
    simp only [Option.map_some']
    have h2 : (s.data.map Char.toNat).map Char.ofNat = s.data := by
      rw [List.map_map]
      have hcomp : (Char.ofNat ∘ Char.toNat) = id := by
        funext c
        exact Char.ofNat_toNat c
      rw [hcomp, List.map_id]
    rw [h2]
  have safe : ∀ s : String, ∀ c ∈ (b64_encode s).data, isPchar c = true := by
    intro s c hc
    unfold b64_encode at hc
    have hdata : (String.mk ((b64EncodeBytes (strBytes s)).map Char.ofNat)).data =
        (b64EncodeBytes (strBytes s)).map Char.ofNat := rfl
    rw [hdata, List.mem_map] at hc
    obtain ⟨code, hcode, rfl⟩ := hc
    have h1 := (b64EncodeBytes_mem _ (strBytes_lt s) code hcode).1
    have h2 := (b64EncodeBytes_mem _ (strBytes_lt s) code hcode).2
    unfold isPchar
    rw [char_toNat_ofNat_valid code (by omega)]
    exact h1
  exact ⟨main u, main r, safe u, safe r⟩

/-- Witness for C1 at a concrete pair containing `/`, `?` and `&`. -/
theorem b64_roundtrip_pathsafe_witness :
    b64_decode (b64_encode "https://cdn.example.com/v/1.mp4?tk=a&b=2") =
      some "https://cdn.example.com/v/1.mp4?tk=a&b=2" :=
  (b64_roundtrip_pathsafe "https://cdn.example.com/v/1.mp4?tk=a&b=2" "r").1

/- ------------------------------------------------------------------ -/
/- Data model for the resolution pipeline                              -/
/- ------------------------------------------------------------------ -/

/-- Value of the optional `size` field: absent key (dict default 0), JSON
null, a JSON number, or a string to be converted by `int(...)`. -/
inductive SizeVal where
  | absent
  | null
  | int (n : Int)
  | str (s : String)
deriving DecidableEq

/-- One entry of the `downloads` list in the backend JSON.  `url` and
`resolution` are `Option` because Python raises `KeyError` when the key is
missing (`item['url']`, `item['resolution']`). -/
structure DownloadItem where
  url : Option String
  resolution : Option Int
  size : SizeVal
deriving DecidableEq

/-- One parsed quality entry, the dict appended at server_ultra.py lines
195-201.  `size_mb` stores `round(size_bytes / (1024*1024), 1)` in tenths of
a megabyte so the value stays in `Int`. -/
structure Quality where
  quality : Int
  label : String
  size_mb : Int
  direct_url : String
  proxy_url : String
deriving DecidableEq

/-- A `stream_links_cache` slot: `{"data": [...], "timestamp": t}`. -/
structure StreamCacheEntry where
  data : List Quality
  timestamp : Int
deriving DecidableEq

/-- The two process-global cache dicts of server_ultra.py
(`detail_path_cache` line 42, `stream_links_cache` line 45). -/
structure ServerState where
  detail_path_cache : List (String × String)
  stream_links_cache : List (String × StreamCacheEntry)
deriving DecidableEq

/- ------------------------------------------------------------------ -/
/- Small Python helpers                                                -/
/- ------------------------------------------------------------------ -/

/-- Digit-string value for Python `int(...)`; `none` on empty or non-digit. -/
def digitsVal (cs : List Char) : Option Nat :=
  if cs.isEmpty then none
  else cs.foldl (fun acc c =>
    match acc with
    | none => none
    | some v => if c.isDigit then some (v * 10 + (c.toNat - 48)) else none) (some 0)

/-- Python `int(s)` for a string: optional surrounding spaces, optional sign,
then decimal digits; `none` models `ValueError`. -/
def pyParseInt (s : String) : Option Int :=
  let cs0 := s.data.dropWhile (fun c => c = ' ')
  let cs := (cs0.reverse.dropWhile (fun c => c = ' ')).reverse
  match cs with
  | '-' :: rest => (digitsVal rest).map (fun v => -(v : Int))
  | '+' :: rest => (digitsVal rest).map (fun v => (v : Int))
  | rest => (digitsVal rest).map (fun v => (v : Int))

/-- `int(item.get('size', 0) or 0)` from server_ultra.py line 193:  missing
key, `None`, `0` and `""` all collapse to 0; a non-empty string must parse as
an integer (`none` models the `ValueError`). -/
def sizeToInt : SizeVal → Option Int
  | SizeVal.absent => some 0
  | SizeVal.null => some 0
  | SizeVal.int n => some n
  | SizeVal.str s => if s = "" then some 0 else pyParseInt s

/-- Python `round(a / b, ...)` scaled to integers: rounds the exact rational
`a / b` (with `b > 0`) to the nearest integer, ties to even. -/
def halfEvenDiv (a b : Int) : Int :=
  let q := Int.fdiv a b
  let r := a - q * b
  if 2 * r < b then q
  else if b < 2 * r then q + 1
  else if q % 2 = 0 then q else q + 1

/-- Modelled from the spec: the external catalog-client helper
`moviebox_api.helpers.get_absolute_url`, which resolves a site-relative path
against the backend host to build the Referer URL. -/
def get_absolute_url (path : String) : String :=
  "https://h5.aoneroom.com" ++ path

/- ------------------------------------------------------------------ -/
/- Network oracles and the request log                                 -/
/- ------------------------------------------------------------------ -/

/-- What the network returned for the detail-metadata fetch in
`get_cached_detail_path`: an exception, or a status code together with the
`data.subject.detailPath` field of the JSON body (`none` when the field is
missing). -/
inductive DetailFetch where
  | exn (msg : String)
  | resp (status : Nat) (detailPath : Option String)
deriving DecidableEq

/-- What the fallback `httpx` client returned in `get_stream_links_fast`:
an exception, or a status code together with `data.downloads` of the body. -/
inductive FallbackOutcome where
  | exn (msg : String)
  | resp (status : Nat) (downloads : List DownloadItem)
deriving DecidableEq

/-- One outgoing HTTP request, as recorded by the model: the detail-metadata
fetch, the primary fetch through the shared authenticated session (cookie
jar), or the fallback fetch through a fresh unauthenticated client with no
cookies. -/
inductive NetCall where
  | detail (url : String)
  | session (url : String) (headers : List (String × String))
  | fallback (url : String) (headers : List (String × String))
deriving DecidableEq

/-- Environment of one `get_stream_links_fast` call: whether
`global_api_session` is set, what the session fetch would return, what the
fallback client would return, and what the detail fetch would return. -/
structure ResolveEnv where
  session_active : Bool
  primary : Except String (List DownloadItem)
  fallback : FallbackOutcome
  detail : DetailFetch

/- ------------------------------------------------------------------ -/
/- Path Resolver: get_cached_detail_path (lines 48-79)                 -/
/- ------------------------------------------------------------------ -/

/-- URL of the detail-metadata endpoint (line 59). -/
def detail_url (subject_id : String) : String :=
  "https://h5.aoneroom.com/wefeed-h5-bff/web/subject/detail?subjectId=" ++ subject_id

/-- Result of `get_cached_detail_path`: the returned path, the updated
`detail_path_cache`, and whether a network fetch was issued. -/
structure DetailOut where
  path : String
  cache : List (String × String)
  fetched : Bool
deriving DecidableEq

/-- `get_cached_detail_path` (lines 48-79): return the cached path if
present; otherwise fetch.  On a 200 response the extracted
`data.get('detailPath', 'unknown')` value is written to the cache and
returned; on an exception or a non-200 status the function returns
`'unknown'` without writing. -/
def get_cached_detail_path (cache : List (String × String)) (subject_id : String)
    (fetch : DetailFetch) : DetailOut :=
  match dictGet cache subject_id with
  | some p => ⟨p, cache, false⟩
  | none =>
    match fetch with
    | DetailFetch.exn _ => ⟨"unknown", cache, true⟩
    | DetailFetch.resp status dp =>
      if status = 200 then
        let path := dp.getD "unknown"
        ⟨path, dictSet cache subject_id path, true⟩
      else ⟨"unknown", cache, true⟩

/- ------------------------------------------------------------------ -/
/- Stream Resolver: get_stream_links_fast (lines 82-226)               -/
/- ------------------------------------------------------------------ -/

/-- The download endpoint (line 114). -/
def download_url : String :=
  "https://h5.aoneroom.com/wefeed-h5-bff/web/subject/download"

/-- The primary request headers built at lines 119-130 (mobile user agent,
Referer from the detail path, Origin, fetch-metadata headers). -/
def mobile_headers (referer_url : String) : List (String × String) :=
  [("Host", "h5.aoneroom.com"),
   ("Referer", referer_url),
   ("Origin", "https://h5.aoneroom.com"),
   ("User-Agent", "Mozilla/5.0 (iPhone; CPU iPhone OS 16_6 like Mac OS X) AppleWebKit/605.1.15 (KHTML, like Gecko) Version/16.6 Mobile/15E148 Safari/604.1"),
   ("Accept", "application/json, text/plain, */*"),
   ("Accept-Language", "en-US,en;q=0.9"),
   ("Sec-Fetch-Site", "same-origin"),
   ("Sec-Fetch-Mode", "cors"),
   ("Sec-Fetch-Dest", "empty"),
   ("Connection", "keep-alive")]

/-- The fallback request headers built at lines 163-166 (desktop user agent
and the same Referer, nothing else, no cookies). -/
def headers_clean (referer_url : String) : List (String × String) :=
  [("User-Agent", "Mozilla/5.0 (Windows NT 10.0; Win64; x64) AppleWebKit/537.36 (KHTML, like Gecko) Chrome/120.0.0.0 Safari/537.36"),
   ("Referer", referer_url)]

/-- Parsing of one `downloads` entry (loop body, lines 188-201).  Evaluation
order follows the source: `item['url']`, then the size conversion, then
`item['resolution']`; the first failure raises. -/
def parse_item (referer_url : String) (item : DownloadItem) : Except String Quality :=
  match item.url with
  | none => Except.error "KeyError: url"
  | some u =>
    let encoded_url := b64_encode u
    let encoded_referer := b64_encode referer_url
    match sizeToInt item.size with
    | none => Except.error "ValueError: invalid literal for int"
    | some size_bytes =>
      match item.resolution with
      | none => Except.error "KeyError: resolution"
      | some res =>
        Except.ok
          { quality := res
            label := toString res ++ "p"
            size_mb := halfEvenDiv (size_bytes * 10) 1048576
            direct_url := u
            proxy_url := "/stream/" ++ encoded_url ++ "/" ++ encoded_referer ++
              "/video_" ++ toString res ++ "p.mp4" }

/-- The whole parsing loop over `downloads` (lines 188-201). -/
def parse_downloads (referer_url : String) : List DownloadItem → Except String (List Quality)
  | [] => Except.ok []
  | item :: rest =>
    match parse_item referer_url item with
    | Except.error e => Except.error e
    | Except.ok q =>
      match parse_downloads referer_url rest with
      | Except.error e => Except.error e
      | Except.ok qs => Except.ok (q :: qs)

/-- Stable insertion of one element into a quality-descending sorted list:
the new element goes before the first strictly smaller entry, i.e. before
later elements of equal quality. -/
def insertQualityDesc (x : Quality) : List Quality → List Quality
  | [] => [x]
  | y :: ys => if y.quality ≤ x.quality then x :: y :: ys else y :: insertQualityDesc x ys

/-- `qualities.sort(key=lambda x: x['quality'], reverse=True)` (line 204).
Python `list.sort` is a stable sort; any stable sort by the same key computes
the same list, so it is modelled by stable insertion sort on the key
`quality`, descending. -/
def pySortQualityDesc : List Quality → List Quality
  | [] => []
  | x :: xs => insertQualityDesc x (pySortQualityDesc xs)

/-- Structured value of one `get_stream_links_fast` return: the success dict
`{"success": True, "qualities": ..., "cached": ..., "timing_ms": ...}` or the
failure dict `{"success": False, "error": ..., "timing_ms": ...}`. -/
inductive ResolveResult where
  | ok (qualities : List Quality) (cached : Bool) (timing_ms : Int)
  | fail (error : String) (timing_ms : Int)
deriving DecidableEq

/-- Full effect of one `get_stream_links_fast` call: returned dict, updated
global caches, and the log of outgoing requests. -/
structure ResolveOut where
  result : ResolveResult
  state : ServerState
  calls : List NetCall
deriving DecidableEq

/-- Tail of `get_stream_links_fast` after a body was obtained (lines
184-221): parse the download list, sort it, cache it only when non-empty,
and return the success dict; a parse failure propagates to the outer
`except` which returns the failure dict (lines 223-226). -/
def finishResolve (st1 : ServerState) (subject_id referer_url : String)
    (downloads : List DownloadItem) (current_time elapsed_ms : Int)
    (calls : List NetCall) : ResolveOut :=
  match parse_downloads referer_url downloads with
  | Except.error e => ⟨ResolveResult.fail e elapsed_ms, st1, calls⟩
  | Except.ok items =>
    let qualities := pySortQualityDesc items
    if qualities.isEmpty then
      ⟨ResolveResult.ok qualities false elapsed_ms, st1, calls⟩
    else
      ⟨ResolveResult.ok qualities false elapsed_ms,
        { st1 with stream_links_cache :=
            dictSet st1.stream_links_cache subject_id ⟨qualities, current_time⟩ }, calls⟩

/-- Lines 106-111 of `get_stream_links_fast`: `if not detail_path:` resolve
it through `get_cached_detail_path` (this also covers a caller-supplied
empty string, which is falsy); otherwise cache the caller-supplied path
unconditionally. -/
def resolveDetail (st : ServerState) (env : ResolveEnv) (subject_id : String)
    (detail_path : Option String) : DetailOut :=
  match detail_path with
  | some dpv =>
    if dpv = "" then get_cached_detail_path st.detail_path_cache subject_id env.detail
    else ⟨dpv, dictSet st.detail_path_cache subject_id dpv, false⟩
  | none => get_cached_detail_path st.detail_path_cache subject_id env.detail

/-- Lines 136-177 of `get_stream_links_fast`: the body acquisition with its
retry chain.  Try the shared session (raising `No active session` when it is
unset, line 147); on any exception make exactly one fallback attempt with a
fresh unauthenticated client, a desktop user agent, no cookies and the same
Referer (lines 153-172); when the fallback also fails, re-raise the original
error (line 177).  Returns the obtained `downloads` list or the surfaced
error, together with the log of attempts made. -/
def primaryAndFallback (env : ResolveEnv) (referer_url : String) :
    Except String (List DownloadItem) × List NetCall :=
  let primaryRes : Except String (List DownloadItem) :=
    if env.session_active then env.primary else Except.error "No active session"
  let primaryCalls :=
    if env.session_active then [NetCall.session download_url (mobile_headers referer_url)]
    else []
  match primaryRes with
  | Except.ok downloads => (Except.ok downloads, primaryCalls)
  | Except.error e =>
    let fbCalls := [NetCall.fallback download_url (headers_clean referer_url)]
    match env.fallback with
    | FallbackOutcome.resp status downloads =>
      if status = 200 then (Except.ok downloads, primaryCalls ++ fbCalls)
      else (Except.error e, primaryCalls ++ fbCalls)
    | FallbackOutcome.exn _ => (Except.error e, primaryCalls ++ fbCalls)

/-- Cache-miss path of `get_stream_links_fast` (lines 104-226): resolve the
detail path, build the Referer, acquire the body through
`primaryAndFallback`, then parse / sort / cache through `finishResolve`; an
error surfaced by the retry chain becomes the failure dict of lines
223-226. -/
def get_stream_links_fresh (st : ServerState) (env : ResolveEnv) (subject_id : String)
    (detail_path : Option String) (current_time elapsed_ms : Int) : ResolveOut :=
  let dres : DetailOut := resolveDetail st env subject_id detail_path
  let dcalls := if dres.fetched then [NetCall.detail (detail_url subject_id)] else []
  let st1 : ServerState := { st with detail_path_cache := dres.cache }
  let referer_url := get_absolute_url ("/movies/" ++ dres.path)
  match primaryAndFallback env referer_url with
  | (Except.ok downloads, acalls) =>
    finishResolve st1 subject_id referer_url downloads current_time elapsed_ms
      (dcalls ++ acalls)
  | (Except.error msg, acalls) =>
    ⟨ResolveResult.fail msg elapsed_ms, st1, dcalls ++ acalls⟩

/-- `get_stream_links_fast` (lines 82-226).  The cache check of lines
98-102: a non-expired entry is returned immediately with `cached=True` and
`timing_ms=0`, touching neither state nor network; otherwise the fresh path
runs.  `current_time` is `time.time()` and `elapsed_ms` the measured
(already rounded) wall-clock duration of the network-bound portion. -/
def get_stream_links_fast (st : ServerState) (env : ResolveEnv) (subject_id : String)
    (detail_path : Option String) (current_time elapsed_ms : Int) : ResolveOut :=
  match dictGet st.stream_links_cache subject_id with
  | some entry =>
    if current_time - entry.timestamp < 1800 then
      ⟨ResolveResult.ok entry.data true 0, st, []⟩
    else get_stream_links_fresh st env subject_id detail_path current_time elapsed_ms
  | none => get_stream_links_fresh st env subject_id detail_path current_time elapsed_ms

/- ------------------------------------------------------------------ -/
/- Opportunistic detail-path seeding (api_home lines 349-361,          -/
/- api_search lines 526-534, api_recommendations lines 593-600)        -/
/- ------------------------------------------------------------------ -/

/-- One subject item of a homepage / search / recommendations response:
`subjectId` and `detailPath` may each be missing. -/
structure SubjectItem where
  subjectId : Option String
  detailPath : Option String
deriving DecidableEq

/-- Python `str(x)` on an optional value: `str(None)` is the string
`"None"`. -/
def pyStrOpt : Option String → String
  | none => "None"
  | some s => s

/-- The seeding loop shared by `api_home`, `api_search` and
`api_recommendations`: `sid = str(item.get("subjectId")); dp =
item.get("detailPath"); if sid and dp: detail_path_cache[sid] = dp`. -/
def seed_detail_paths (cache : List (String × String)) (items : List SubjectItem) :
    List (String × String) :=
  items.foldl (fun c item =>
    let sid := pyStrOpt item.subjectId
    match item.detailPath with
    | none => c
    | some dp => if sid ≠ "" ∧ dp ≠ "" then dictSet c sid dp else c) cache

/- ------------------------------------------------------------------ -/
/- Streaming Proxy: stream_video (lines 770-823) and iter_file         -/
/- ------------------------------------------------------------------ -/

/-- The header/status plumbing of `stream_video`: the headers put on the
upstream request and the status / headers of the proxy's own response.  The
streamed body is described separately by `iter_file`. -/
structure StreamVideoOut where
  upstream_headers : List (String × String)
  status_code : Nat
  resp_headers : List (String × String)
deriving DecidableEq

/-- `stream_video` header/status logic (lines 776-823).  `base_headers`
stands for the external constant `DOWNLOAD_REQUEST_HEADERS` (copied at line
779).  `range_header` is `request.headers.get("Range")`; `up_status`,
`up_content_length`, `up_content_range` describe the upstream response
(`none` when the header is absent; note `r.headers.get(h)` yields `""` for a
present-but-empty header, which the `if` treats as absent). -/
def stream_video (base_headers : List (String × String)) (range_header : Option String)
    (up_status : Nat) (up_content_length up_content_range : Option String) :
    StreamVideoOut :=
  let headers :=
    match range_header with
    | some r => if r ≠ "" then dictSet base_headers "Range" r else base_headers
    | none => base_headers
  let resp0 : List (String × String) :=
    [("Content-Type", "video/mp4"), ("Accept-Ranges", "bytes"), ("Cache-Control", "no-cache")]
  let resp1 :=
    match up_content_length with
    | some v => if v ≠ "" then dictSet resp0 "Content-Length" v else resp0
    | none => resp0
  let resp2 :=
    match up_content_range with
    | some v => if v ≠ "" then dictSet resp1 "Content-Range" v else resp1
    | none => resp1
  ⟨headers, up_status, resp2⟩

/-- One event of the upstream body iterator `r.aiter_bytes(...)`: a chunk
arrives, or the iteration raises. -/
inductive UpEvent where
  | chunk (data : List Nat)
  | err (msg : String)
deriving DecidableEq

/-- How the `try` body of `iter_file` exits: the chunk loop completes, an
`Exception` is raised by the upstream read, or the consumer disconnects and
`GeneratorExit` (a `BaseException`, not caught by `except Exception`) is
thrown in at the `yield`. -/
inductive ExitKind where
  | normal
  | exc (msg : String)
  | genExit
deriving DecidableEq

/-- The chunk loop of `iter_file` (lines 800-802): yields chunks until the
events end, the upstream read raises, or the consumer has disconnected after
`disconnect` chunks (the next `yield` then raises `GeneratorExit`). -/
def iter_file_body : List UpEvent → Option Nat → List (List Nat) →
    List (List Nat) × ExitKind
  | [], _, acc => (acc.reverse, ExitKind.normal)
  | UpEvent.err m :: _, _, acc => (acc.reverse, ExitKind.exc m)
  | UpEvent.chunk d :: rest, disconnect, acc =>
    if disconnect = some acc.length then (acc.reverse, ExitKind.genExit)
    else iter_file_body rest disconnect (d :: acc)

/-- `except Exception: pass` (lines 803-804): an `Exception` is swallowed;
`GeneratorExit` and normal completion pass through. -/
def handleExcept : ExitKind → ExitKind
  | ExitKind.exc _ => ExitKind.normal
  | e => e

/-- Observable outcome of one run of the `iter_file` generator: the chunks
delivered downstream, whether `r.aclose()` ran, and what (if anything)
propagates out of the iterator. -/
structure IterOutcome where
  yielded : List (List Nat)
  closed : Bool
  outcome : ExitKind
deriving DecidableEq

/-- `iter_file` (lines 798-806): the chunk loop wrapped in
`try ... except Exception: pass ... finally: await r.aclose()`.  The
`finally` clause runs on every exit path, so `closed` is unconditionally
true; the `except` clause downgrades any `Exception` to a silent stop. -/
def iter_file (events : List UpEvent) (disconnect : Option Nat) : IterOutcome :=
  let bodyRes := iter_file_body events disconnect []
  ⟨bodyRes.1, true, handleExcept bodyRes.2⟩

/- ------------------------------------------------------------------ -/
/- Path Resolver lemmas                                                -/
/- ------------------------------------------------------------------ -/

theorem gcdp_hit (cache : List (String × String)) (sid : String) (fetch : DetailFetch)
    (p : String) (hp : dictGet cache sid = some p) :
    get_cached_detail_path cache sid fetch = ⟨p, cache, false⟩ := by
  unfold get_cached_detail_path
  rw [hp]

theorem gcdp_exn (cache : List (String × String)) (sid msg : String)
    (hmiss : dictGet cache sid = none) :
    get_cached_detail_path cache sid (DetailFetch.exn msg) = ⟨"unknown", cache, true⟩ := by
  unfold get_cached_detail_path
  rw [hmiss]

theorem gcdp_resp_non200 (cache : List (String × String)) (sid : String) (status : Nat)
    (dp : Option String) (hmiss : dictGet cache sid = none) (hs : status ≠ 200) :
    get_cached_detail_path cache sid (DetailFetch.resp status dp) = ⟨"unknown", cache, true⟩ := by
  unfold get_cached_detail_path
  rw [hmiss]
  simp [hs]

theorem gcdp_resp200 (cache : List (String × String)) (sid : String) (dp : Option String)
    (hmiss : dictGet cache sid = none) :
    get_cached_detail_path cache sid (DetailFetch.resp 200 dp) =
      ⟨dp.getD "unknown", dictSet cache sid (dp.getD "unknown"), true⟩ := by
  unfold get_cached_detail_path
  rw [hmiss]
  simp

theorem gcdp_fetched_of_miss (cache : List (String × String)) (sid : String)
    (fetch : DetailFetch) (hmiss : dictGet cache sid = none) :
    (get_cached_detail_path cache sid fetch).fetched = true := by
  cases fetch with
  | exn m => rw [gcdp_exn cache sid m hmiss]
  | resp status dp =>
    by_cases hs : status = 200
    · subst hs
      rw [gcdp_resp200 cache sid dp hmiss]
    · rw [gcdp_resp_non200 cache sid status dp hmiss hs]

/-- The path resolver never changes the value of an existing cache entry. -/
theorem gcdp_preserves_entry (cache : List (String × String)) (sid : String)
    (fetch : DetailFetch) (k v : String) (hk : dictGet cache k = some v) :
    dictGet (get_cached_detail_path cache sid fetch).cache k = some v := by
  cases hsid : dictGet cache sid with
  | some p => rw [gcdp_hit cache sid fetch p hsid]; exact hk
  | none =>
    cases fetch with
    | exn m => rw [gcdp_exn cache sid m hsid]; exact hk
    | resp status dp =>
      by_cases hs : status = 200
      · subst hs
        rw [gcdp_resp200 cache sid dp hsid]
        have hne : sid ≠ k := by
          intro he
          rw [he, hk] at hsid
          cases hsid
        rw [dictGet_dictSet_ne _ _ _ _ hne]
        exact hk
      · rw [gcdp_resp_non200 cache sid status dp hsid hs]; exact hk

theorem gcdp_presence (cache : List (String × String)) (sid : String)
    (fetch : DetailFetch) (k : String) (hk : (dictGet cache k).isSome) :
    (dictGet (get_cached_detail_path cache sid fetch).cache k).isSome := by
  obtain ⟨v, hv⟩ := Option.isSome_iff_exists.mp hk
  rw [gcdp_preserves_entry cache sid fetch k v hv]
  rfl

/-- Seeding from homepage / search results never deletes a cache entry (it
may overwrite values, but every present key stays present). -/
theorem seed_presence (items : List SubjectItem) : ∀ cache k, (dictGet cache k).isSome →
    (dictGet (seed_detail_paths cache items) k).isSome := by
  induction items with
  | nil => intro cache k h; exact h
  | cons it rest ih =>
    intro cache k h
    show (dictGet (seed_detail_paths
      (match it.detailPath with
       | none => cache
       | some dp => if pyStrOpt it.subjectId ≠ "" ∧ dp ≠ "" then
           dictSet cache (pyStrOpt it.subjectId) dp else cache) rest) k).isSome
    apply ih
    cases hdp : it.detailPath with
    | none => exact h
    | some dp =>
      by_cases hc : pyStrOpt it.subjectId ≠ "" ∧ dp ≠ ""
      · simp only [if_pos hc]
        exact dictGet_dictSet_isSome _ _ _ _ h
      · simp only [if_neg hc]
        exact h

/- ------------------------------------------------------------------ -/
/- Characterization lemmas for the Stream Resolver                     -/
/- ------------------------------------------------------------------ -/

theorem finish_calls (st1 : ServerState) (sid ref : String) (dls : List DownloadItem)
    (t e : Int) (calls : List NetCall) :
    (finishResolve st1 sid ref dls t e calls).calls = calls := by
  unfold finishResolve
  split
  · rfl
  · dsimp only
    split <;> rfl

theorem finish_detail (st1 : ServerState) (sid ref : String) (dls : List DownloadItem)
    (t e : Int) (calls : List NetCall) :
    (finishResolve st1 sid ref dls t e calls).state.detail_path_cache =
      st1.detail_path_cache := by
  unfold finishResolve
  split
  · rfl
  · dsimp only
    split <;> rfl

theorem finish_cases (st1 : ServerState) (sid ref : String) (dls : List DownloadItem)
    (t e : Int) (calls : List NetCall) :
    (∃ msg, finishResolve st1 sid ref dls t e calls =
        ⟨ResolveResult.fail msg e, st1, calls⟩) ∨
    (∃ items, parse_downloads ref dls = Except.ok items ∧
      ((pySortQualityDesc items = [] ∧
        finishResolve st1 sid ref dls t e calls =
          ⟨ResolveResult.ok (pySortQualityDesc items) false e, st1, calls⟩) ∨
       (pySortQualityDesc items ≠ [] ∧
        finishResolve st1 sid ref dls t e calls =
          ⟨ResolveResult.ok (pySortQualityDesc items) false e,
           { st1 with stream_links_cache :=
               dictSet st1.stream_links_cache sid ⟨pySortQualityDesc items, t⟩ }, calls⟩))) := by
  unfold finishResolve
  cases hp : parse_downloads ref dls with
  | error msg => exact Or.inl ⟨msg, rfl⟩
  | ok items =>
    refine Or.inr ⟨items, rfl, ?_⟩
    dsimp only
    cases hq : pySortQualityDesc items with
    | nil =>
      left
      exact ⟨rfl, rfl⟩
    | cons q qs =>
      right
      exact ⟨by simp, rfl⟩

theorem fresh_detail_eq (st : ServerState) (env : ResolveEnv) (sid : String)
    (dp : Option String) (t e : Int) :
    (get_stream_links_fresh st env sid dp t e).state.detail_path_cache =
      (resolveDetail st env sid dp).cache := by
  unfold get_stream_links_fresh
  dsimp only
  split
  · rw [finish_detail]
  · rfl

theorem fresh_stream_cases (st : ServerState) (env : ResolveEnv) (sid : String)
    (dp : Option String) (t e : Int) :
    ((∃ msg, (get_stream_links_fresh st env sid dp t e).result = ResolveResult.fail msg e) ∧
     (get_stream_links_fresh st env sid dp t e).state.stream_links_cache =
       st.stream_links_cache) ∨
    (∃ ref dls items, parse_downloads ref dls = Except.ok items ∧
      (get_stream_links_fresh st env sid dp t e).result =
        ResolveResult.ok (pySortQualityDesc items) false e ∧
      ((pySortQualityDesc items = [] ∧
        (get_stream_links_fresh st env sid dp t e).state.stream_links_cache =
          st.stream_links_cache) ∨
       (pySortQualityDesc items ≠ [] ∧
        (get_stream_links_fresh st env sid dp t e).state.stream_links_cache =
          dictSet st.stream_links_cache sid ⟨pySortQualityDesc items, t⟩))) := by
  unfold get_stream_links_fresh
  dsimp only
  split
  · rename_i dls acalls heq
    rcases finish_cases { st with detail_path_cache := (resolveDetail st env sid dp).cache }
        sid (get_absolute_url ("/movies/" ++ (resolveDetail st env sid dp).path)) dls t e
        ((if (resolveDetail st env sid dp).fetched then [NetCall.detail (detail_url sid)]
          else []) ++ acalls) with
        ⟨msg, hfin⟩ | ⟨items, hp, hrest⟩
    · rw [hfin]
      exact Or.inl ⟨⟨msg, rfl⟩, rfl⟩
    · rcases hrest with ⟨hq, hfin⟩ | ⟨hq, hfin⟩
      · rw [hfin]
        exact Or.inr ⟨_, dls, items, hp, rfl, Or.inl ⟨hq, rfl⟩⟩
      · rw [hfin]
        exact Or.inr ⟨_, dls, items, hp, rfl, Or.inr ⟨hq, rfl⟩⟩
  · rename_i msg acalls heq
    exact Or.inl ⟨⟨msg, rfl⟩, rfl⟩

theorem pf_calls_ne_nil (env : ResolveEnv) (r : String) :
    (primaryAndFallback env r).2 ≠ [] := by
  unfold primaryAndFallback
  dsimp only
  by_cases hs : env.session_active = true
  · simp only [if_pos hs]
    cases hp : env.primary with
    | ok d => simp
    | error m =>
      cases env.fallback with
      | resp s d => by_cases h2 : s = 200 <;> simp [h2]
      | exn m2 => simp
  · simp only [if_neg hs]
    cases env.fallback with
    | resp s d => by_cases h2 : s = 200 <;> simp [h2]
    | exn m2 => simp

theorem fresh_calls_ne_nil (st : ServerState) (env : ResolveEnv) (sid : String)
    (dp : Option String) (t e : Int) :
    (get_stream_links_fresh st env sid dp t e).calls ≠ [] := by
  unfold get_stream_links_fresh
  dsimp only
  split
  · rename_i dls acalls heq
    rw [finish_calls]
    intro h
    rcases List.append_eq_nil.mp h with ⟨h1, h2⟩
    have hne := pf_calls_ne_nil env
      (get_absolute_url ("/movies/" ++ (resolveDetail st env sid dp).path))
    rw [heq] at hne
    exact hne h2
  · rename_i msg acalls heq
    intro h
    rcases List.append_eq_nil.mp h with ⟨h1, h2⟩
    have hne := pf_calls_ne_nil env
      (get_absolute_url ("/movies/" ++ (resolveDetail st env sid dp).path))
    rw [heq] at hne
    exact hne h2

theorem fast_hit (st : ServerState) (env : ResolveEnv) (sid : String) (dp : Option String)
    (t e : Int) (entry : StreamCacheEntry)
    (hent : dictGet st.stream_links_cache sid = some entry)
    (httl : t - entry.timestamp < 1800) :
    get_stream_links_fast st env sid dp t e = ⟨ResolveResult.ok entry.data true 0, st, []⟩ := by
  unfold get_stream_links_fast
  rw [hent]
  simp [httl]

theorem fast_miss (st : ServerState) (env : ResolveEnv) (sid : String) (dp : Option String)
    (t e : Int) (h : dictGet st.stream_links_cache sid = none) :
    get_stream_links_fast st env sid dp t e =
      get_stream_links_fresh st env sid dp t e := by
  unfold get_stream_links_fast
  rw [h]

theorem fast_stale (st : ServerState) (env : ResolveEnv) (sid : String) (dp : Option String)
    (t e : Int) (entry : StreamCacheEntry)
    (hent : dictGet st.stream_links_cache sid = some entry)
    (h : ¬ (t - entry.timestamp < 1800)) :
    get_stream_links_fast st env sid dp t e =
      get_stream_links_fresh st env sid dp t e := by
  unfold get_stream_links_fast
  rw [hent]
  simp [h]

theorem fast_cases (st : ServerState) (env : ResolveEnv) (sid : String) (dp : Option String)
    (t e : Int) :
    (∃ entry, dictGet st.stream_links_cache sid = some entry ∧
      t - entry.timestamp < 1800 ∧
      get_stream_links_fast st env sid dp t e =
        ⟨ResolveResult.ok entry.data true 0, st, []⟩) ∨
    get_stream_links_fast st env sid dp t e = get_stream_links_fresh st env sid dp t e := by
  cases hent : dictGet st.stream_links_cache sid with
  | none => exact Or.inr (fast_miss st env sid dp t e hent)
  | some entry =>
    by_cases httl : t - entry.timestamp < 1800
    · exact Or.inl ⟨entry, rfl, httl, fast_hit st env sid dp t e entry hent httl⟩
    · exact Or.inr (fast_stale st env sid dp t e entry hent httl)

/- ------------------------------------------------------------------ -/
/- Sorting lemmas                                                      -/
/- ------------------------------------------------------------------ -/

theorem mem_insertQualityDesc (x z : Quality) (l : List Quality) :
    z ∈ insertQualityDesc x l ↔ z = x ∨ z ∈ l := by
  induction l with
  | nil => simp [insertQualityDesc]
  | cons y ys ih =>
    unfold insertQualityDesc
    by_cases h : y.quality ≤ x.quality
    · rw [if_pos h]
      simp only [List.mem_cons]
    · rw [if_neg h]
      simp only [List.mem_cons, ih]
      tauto

theorem insertQualityDesc_sorted (x : Quality) (l : List Quality)
    (hl : List.Pairwise (fun a b => b.quality ≤ a.quality) l) :
    List.Pairwise (fun a b => b.quality ≤ a.quality) (insertQualityDesc x l) := by
  induction l with
  | nil => simp [insertQualityDesc]
  | cons y ys ih =>
    rcases List.pairwise_cons.mp hl with ⟨hy, hys⟩
    unfold insertQualityDesc
    by_cases h : y.quality ≤ x.quality
    · rw [if_pos h]
      refine List.pairwise_cons.mpr ⟨?_, hl⟩
      intro z hz
      rcases List.mem_cons.mp hz with rfl | hz2
      · exact h
      · exact le_trans (hy z hz2) h
    · rw [if_neg h]
      refine List.pairwise_cons.mpr ⟨?_, ih hys⟩
      intro z hz
      rcases (mem_insertQualityDesc x z ys).mp hz with rfl | hz2
      · omega
      · exact hy z hz2

theorem pySortQualityDesc_sorted (l : List Quality) :
    List.Pairwise (fun a b => b.quality ≤ a.quality) (pySortQualityDesc l) := by
  induction l with
  | nil => simp [pySortQualityDesc]
  | cons x xs ih => exact insertQualityDesc_sorted x _ ih

theorem insertQualityDesc_perm (x : Quality) (l : List Quality) :
    (insertQualityDesc x l).Perm (x :: l) := by
  induction l with
  | nil => simp [insertQualityDesc]
  | cons y ys ih =>
    unfold insertQualityDesc
    by_cases h : y.quality ≤ x.quality
    · rw [if_pos h]
    · rw [if_neg h]
      exact (List.Perm.cons y ih).trans (List.Perm.swap x y ys)

theorem pySortQualityDesc_perm (l : List Quality) : (pySortQualityDesc l).Perm l := by
  induction l with
  | nil => exact List.Perm.refl []
  | cons x xs ih =>
    exact (insertQualityDesc_perm x (pySortQualityDesc xs)).trans (List.Perm.cons x ih)

theorem filter_insertQualityDesc (q : Int) (x : Quality) (l : List Quality) :
    (insertQualityDesc x l).filter (fun z => z.quality == q) =
      if x.quality == q then x :: l.filter (fun z => z.quality == q)
      else l.filter (fun z => z.quality == q) := by
  induction l with
  | nil => simp [insertQualityDesc, List.filter_cons]
  | cons y ys ih =>
    unfold insertQualityDesc
    by_cases h : y.quality ≤ x.quality
    · rw [if_pos h]
      simp [List.filter_cons]
    · rw [if_neg h]
      by_cases hx : (x.quality == q) = true
      · have hxq : x.quality = q := by simpa using hx
        have hyq : (y.quality == q) = false := by
          have : y.quality ≠ q := by omega
          simpa using this
        simp [List.filter_cons, ih, hx, hyq]
      · have hx2 : (x.quality == q) = false := by
          cases hb : (x.quality == q) with
          | true => exact absurd hb hx
          | false => rfl
        simp [List.filter_cons, ih, hx2]

theorem pySortQualityDesc_filter (l : List Quality) (q : Int) :
    (pySortQualityDesc l).filter (fun z => z.quality == q) =
      l.filter (fun z => z.quality == q) := by
  induction l with
  | nil => rfl
  | cons x xs ih =>
    show (insertQualityDesc x (pySortQualityDesc xs)).filter (fun z => z.quality == q) = _
    rw [filter_insertQualityDesc, ih]
    by_cases hx : (x.quality == q) = true
    · simp [List.filter_cons, hx]
    · have hx2 : (x.quality == q) = false := by
        cases hb : (x.quality == q) with
        | true => exact absurd hb hx
        | false => rfl
      simp [List.filter_cons, hx2]

/-- Parsing preserves the order of the downloads list item by item. -/
theorem parse_downloads_forall2 (ref : String) (dls : List DownloadItem)
    (items : List Quality) (h : parse_downloads ref dls = Except.ok items) :
    List.Forall₂ (fun d qd => parse_item ref d = Except.ok qd) dls items := by
  induction dls generalizing items with
  | nil =>
    unfold parse_downloads at h
    injection h with h'
    subst h'
    exact List.Forall₂.nil
  | cons d rest ih =>
    unfold parse_downloads at h
    cases hd : parse_item ref d with
    | error msg => rw [hd] at h; cases h
    | ok qd =>
      rw [hd] at h
      cases hr : parse_downloads ref rest with
      | error msg => rw [hr] at h; cases h
      | ok qs =>
        rw [hr] at h
        injection h with h'
        subst h'
        exact List.Forall₂.cons hd (ih qs hr)

/- ------------------------------------------------------------------ -/
/- Retry-chain helpers (claim C7) and further resolver lemmas          -/
/- ------------------------------------------------------------------ -/

/-- Discriminator for fallback-client requests in the call log. -/
def isFallbackCall : NetCall → Bool
  | NetCall.fallback _ _ => true
  | _ => false

/-- Discriminator for shared-session requests in the call log. -/
def isSessionCall : NetCall → Bool
  | NetCall.session _ _ => true
  | _ => false

/-- The error message with which the primary attempt of lines 141-147 fails,
if it fails: `No active session` when the global session is unset, otherwise
the session fetch's own exception. -/
def primaryErrorMsg (env : ResolveEnv) : Option String :=
  if env.session_active then
    match env.primary with
    | Except.error m => some m
    | Except.ok _ => none
  else some "No active session"

/-- Whether the fallback attempt of lines 153-172 fails (an exception, or a
non-200 status which raises at line 172). -/
def fallbackFailed : FallbackOutcome → Bool
  | FallbackOutcome.exn _ => true
  | FallbackOutcome.resp s _ => decide (s ≠ 200)

theorem pf_spec (env : ResolveEnv) (r : String) (msg : String)
    (hfail : primaryErrorMsg env = some msg) :
    ((primaryAndFallback env r).2.filter isFallbackCall =
      [NetCall.fallback download_url (headers_clean r)]) ∧
    (env.session_active = true →
      (primaryAndFallback env r).2.filter isSessionCall =
        [NetCall.session download_url (mobile_headers r)]) ∧
    (fallbackFailed env.fallback = true →
      (primaryAndFallback env r).1 = Except.error msg) := by
  unfold primaryErrorMsg at hfail
  unfold primaryAndFallback
  dsimp only
  by_cases hs : env.session_active = true
  · rw [if_pos hs] at hfail
    simp only [if_pos hs]
    cases hp : env.primary with
    | ok d =>
      rw [hp] at hfail
      simp at hfail
    | error m =>
      rw [hp] at hfail
      simp only at hfail
      injection hfail with hm
      subst hm
      try dsimp only
      cases hfb : env.fallback with
      | exn m2 =>
        dsimp only
        refine ⟨by simp [List.filter, isFallbackCall, isSessionCall], ?_, ?_⟩
        · intro _
          simp [List.filter, isFallbackCall, isSessionCall]
        · intro _
          rfl
      | resp s d =>
        dsimp only
        by_cases h200 : s = 200
        · subst h200
          simp only [if_pos rfl]
          refine ⟨by simp [List.filter, isFallbackCall, isSessionCall], ?_, ?_⟩
          · intro _
            simp [List.filter, isFallbackCall, isSessionCall]
          · intro hf
            simp [fallbackFailed] at hf
        · rw [if_neg h200]
          refine ⟨by simp [List.filter, isFallbackCall, isSessionCall], ?_, ?_⟩
          · intro _
            simp [List.filter, isFallbackCall, isSessionCall]
          · intro _
            rfl
  · rw [if_neg hs] at hfail
    injection hfail with hm
    subst hm
    simp only [if_neg hs]
    try dsimp only
    cases hfb : env.fallback with
    | exn m2 =>
      try dsimp only
      refine ⟨by simp [List.filter, isFallbackCall], ?_, ?_⟩
      · intro habs
        exact absurd habs hs
      · intro _
        rfl
    | resp s d =>
      try dsimp only
      by_cases h200 : s = 200
      · subst h200
        simp only [if_pos rfl]
        refine ⟨by simp [List.filter, isFallbackCall], ?_, ?_⟩
        · intro habs
          exact absurd habs hs
        · intro hf
          simp [fallbackFailed] at hf
      · rw [if_neg h200]
        refine ⟨by simp [List.filter, isFallbackCall], ?_, ?_⟩
        · intro habs
          exact absurd habs hs
        · intro _
          rfl

theorem fresh_calls_eq (st : ServerState) (env : ResolveEnv) (sid : String)
    (dp : Option String) (t e : Int) :
    (get_stream_links_fresh st env sid dp t e).calls =
      (if (resolveDetail st env sid dp).fetched then [NetCall.detail (detail_url sid)]
       else []) ++
      (primaryAndFallback env
        (get_absolute_url ("/movies/" ++ (resolveDetail st env sid dp).path))).2 := by
  unfold get_stream_links_fresh
  dsimp only
  split
  · rename_i dls acalls heq
    rw [finish_calls, heq]
  · rename_i m acalls heq
    rw [heq]

theorem fresh_result_fail (st : ServerState) (env : ResolveEnv) (sid : String)
    (dp : Option String) (t e : Int) (msg : String)
    (h : (primaryAndFallback env
        (get_absolute_url ("/movies/" ++ (resolveDetail st env sid dp).path))).1 =
      Except.error msg) :
    (get_stream_links_fresh st env sid dp t e).result = ResolveResult.fail msg e := by
  unfold get_stream_links_fresh
  dsimp only
  split
  · rename_i dls acalls heq
    rw [heq] at h
    cases h
  · rename_i m acalls heq
    rw [heq] at h
    injection h with h'
    subst h'
    rfl

theorem fast_detail_presence (st : ServerState) (env : ResolveEnv) (sid : String)
    (dp : Option String) (t e : Int) (k : String)
    (hk : (dictGet st.detail_path_cache k).isSome) :
    (dictGet (get_stream_links_fast st env sid dp t e).state.detail_path_cache k).isSome := by
  rcases fast_cases st env sid dp t e with ⟨entry, hent, httl, heq⟩ | heq
  · rw [heq]
    exact hk
  · rw [heq, fresh_detail_eq]
    unfold resolveDetail
    cases dp with
    | none => exact gcdp_presence _ _ _ _ hk
    | some dpv =>
      dsimp only
      by_cases hd : dpv = ""
      · rw [if_pos hd]
        exact gcdp_presence _ _ _ _ hk
      · rw [if_neg hd]
        exact dictGet_dictSet_isSome _ _ _ _ hk

theorem fast_empty_stream_unchanged (st : ServerState) (env : ResolveEnv) (sid : String)
    (dp : Option String) (t e : Int) (c : Bool) (tm : Int)
    (hres : (get_stream_links_fast st env sid dp t e).result = ResolveResult.ok [] c tm) :
    (get_stream_links_fast st env sid dp t e).state.stream_links_cache =
      st.stream_links_cache := by
  rcases fast_cases st env sid dp t e with ⟨entry, hent, httl, heq⟩ | heq
  · rw [heq]
  · rw [heq] at hres ⊢
    rcases fresh_stream_cases st env sid dp t e with ⟨⟨m2, hres2⟩, hstream⟩ |
        ⟨ref, dls, items, hp, hres2, hrest⟩
    · exact hstream
    · rw [hres2] at hres
      injection hres with h1 h2 h3
      rcases hrest with ⟨hq, hstream⟩ | ⟨hq, hstream⟩
      · exact hstream
      · exact absurd h1 hq

theorem fast_inv_preserved (st : ServerState) (env : ResolveEnv) (sid : String)
    (dp : Option String) (t e : Int)
    (hinv : ∀ k entry, dictGet st.stream_links_cache k = some entry → entry.data ≠ []) :
    ∀ k entry,
      dictGet (get_stream_links_fast st env sid dp t e).state.stream_links_cache k =
        some entry → entry.data ≠ [] := by
  intro k entry hke
  rcases fast_cases st env sid dp t e with ⟨entry0, hent, httl, heq⟩ | heq
  · rw [heq] at hke
    exact hinv k entry hke
  · rw [heq] at hke
    rcases fresh_stream_cases st env sid dp t e with ⟨⟨m2, hres2⟩, hstream⟩ |
        ⟨ref, dls, items, hp, hres2, hrest⟩
    · rw [hstream] at hke
      exact hinv k entry hke
    · rcases hrest with ⟨hq, hstream⟩ | ⟨hq, hstream⟩
      · rw [hstream] at hke
        exact hinv k entry hke
      · rw [hstream] at hke
        by_cases hk : sid = k
        · subst hk
          rw [dictGet_dictSet_self] at hke
          injection hke with h'
          rw [← h']
          exact hq
        · rw [dictGet_dictSet_ne _ _ _ _ hk] at hke
          exact hinv k entry hke

/- ------------------------------------------------------------------ -/
/- Concrete inputs used by witnesses and counterexamples               -/
/- ------------------------------------------------------------------ -/

/-- Empty caches, as at process start. -/
def stEmpty : ServerState := ⟨[], []⟩

/-- Environment whose session fetch succeeds with one 720p download. -/
def envOk1 : ResolveEnv :=
  ⟨true, Except.ok [⟨some "u", some 720, SizeVal.int 0⟩],
   FallbackOutcome.exn "fb", DetailFetch.exn "df"⟩

/-- Environment whose session fetch succeeds with an empty downloads list. -/
def envEmpty : ResolveEnv :=
  ⟨true, Except.ok [], FallbackOutcome.exn "fb", DetailFetch.exn "df"⟩

/-- Environment where both the session fetch and the fallback fail. -/
def envFail : ResolveEnv :=
  ⟨true, Except.error "primary boom", FallbackOutcome.exn "fb", DetailFetch.exn "df"⟩

/-- Environment whose session fetch returns qualities 480, 1080, 720 in that
order. -/
def envSort : ResolveEnv :=
  ⟨true,
   Except.ok [⟨some "a", some 480, SizeVal.int 0⟩, ⟨some "b", some 1080, SizeVal.int 0⟩,
              ⟨some "c", some 720, SizeVal.int 0⟩],
   FallbackOutcome.exn "fb", DetailFetch.exn "df"⟩

/- ------------------------------------------------------------------ -/
/- Claim theorems                                                      -/
/- ------------------------------------------------------------------ -/

/-- Claim C2 is false as stated: an existing DetailPath cache entry
("1" maps to "a") is overwritten both by the search/homepage seeding loop
and by a stream resolution carrying a caller-supplied path; the first
written value is not returned afterwards. -/
theorem detail_path_overwrite_counterexample :
    dictGet (seed_detail_paths [("1", "a")] [⟨some "1", some "b"⟩]) "1" = some "b" ∧
    dictGet ((get_stream_links_fast ⟨[("1", "a")], []⟩ envFail "1" (some "b") 0 0).state.detail_path_cache) "1" = some "b" ∧
    ¬ (dictGet (seed_detail_paths [("1", "a")] [⟨some "1", some "b"⟩]) "1" = some "a") := by
  refine ⟨by decide, by decide, by decide⟩

/-- Claim C2 (amended): once written, a DetailPath cache entry is never
removed by any operation, and path resolution (`get_cached_detail_path`)
never overwrites it; however stream resolution with a caller-supplied
path and the search/homepage seeding write unconditionally, so the stored
value can change (last writer wins). -/
theorem detail_path_cache_amended :
    (∀ cache sid fetch k v, dictGet cache k = some v →
      dictGet (get_cached_detail_path cache sid fetch).cache k = some v) ∧
    (∀ st env sid dp t e k, (dictGet (ServerState.detail_path_cache st) k).isSome →
      (dictGet (get_stream_links_fast st env sid dp t e).state.detail_path_cache k).isSome) ∧
    (∀ cache items k, (dictGet cache k).isSome →
      (dictGet (seed_detail_paths cache items) k).isSome) :=
  ⟨gcdp_preserves_entry, fast_detail_presence,
   fun cache items k h => seed_presence items cache k h⟩

/-- Witness for the amended C2 at a concrete cache. -/
theorem detail_path_cache_amended_witness :
    dictGet (get_cached_detail_path [("1", "a")] "1" (DetailFetch.exn "x")).cache "1" =
      some "a" :=
  detail_path_cache_amended.1 [("1", "a")] "1" (DetailFetch.exn "x") "1" "a" (by decide)

/-- Claim C3 is false as stated for the missing-field case: a 200 response
whose JSON lacks `detailPath` makes `get_cached_detail_path` cache the
sentinel `unknown` permanently — the next call for the same id is a cache
hit and performs no fetch. -/
theorem resolvePath_missing_field_caches_unknown :
    (get_cached_detail_path [] "7" (DetailFetch.resp 200 none)).cache = [("7", "unknown")] ∧
    (get_cached_detail_path [("7", "unknown")] "7" (DetailFetch.exn "later")).fetched = false := by
  exact ⟨rfl, rfl⟩

/-- Claim C3 (amended): on a network error or a non-200 status the resolver
returns the sentinel `unknown` and writes nothing, so the next call fetches
again; but a 200 response lacking the `detailPath` field caches the sentinel
`unknown` itself (and returns it). -/
theorem resolvePath_failure_behavior (cache : List (String × String)) (sid : String)
    (hmiss : dictGet cache sid = none) :
    (∀ msg, get_cached_detail_path cache sid (DetailFetch.exn msg) = ⟨"unknown", cache, true⟩) ∧
    (∀ status dp, status ≠ 200 →
      get_cached_detail_path cache sid (DetailFetch.resp status dp) =
        ⟨"unknown", cache, true⟩) ∧
    (get_cached_detail_path cache sid (DetailFetch.resp 200 none) =
      ⟨"unknown", dictSet cache sid "unknown", true⟩) ∧
    (∀ fetch, (get_cached_detail_path cache sid fetch).fetched = true) :=
  ⟨fun msg => gcdp_exn cache sid msg hmiss,
   fun status dp hs => gcdp_resp_non200 cache sid status dp hmiss hs,
   by rw [gcdp_resp200 cache sid none hmiss]; rfl,
   fun fetch => gcdp_fetched_of_miss cache sid fetch hmiss⟩

/-- Witness for the amended C3 at a concrete miss. -/
theorem resolvePath_failure_behavior_witness :
    get_cached_detail_path [] "9" (DetailFetch.exn "net down") = ⟨"unknown", [], true⟩ :=
  (resolvePath_failure_behavior [] "9" rfl).1 "net down"

/-- Claim C4: (a) whenever a `get_stream_links_fast` call returns an empty
qualities list, the stream-links cache is left exactly as it was; (b) the
stream-links cache is never written with an empty list — if every cached
list is non-empty before a call, that still holds afterwards (no other
operation of the file touches this cache); (c) after an empty result, the
immediately following call for the same id performs a fresh network
resolution (its call log is non-empty) rather than serving a cache hit. -/
theorem empty_streams_never_cached :
    (∀ st env sid dp t e c tm,
      (get_stream_links_fast st env sid dp t e).result = ResolveResult.ok [] c tm →
      (get_stream_links_fast st env sid dp t e).state.stream_links_cache =
        st.stream_links_cache) ∧
    (∀ st env sid dp t e,
      (∀ k entry, dictGet (ServerState.stream_links_cache st) k = some entry →
        entry.data ≠ []) →
      ∀ k entry,
        dictGet (get_stream_links_fast st env sid dp t e).state.stream_links_cache k =
          some entry → entry.data ≠ []) ∧
    (∀ st env sid dp t e c tm,
      (∀ k entry, dictGet (ServerState.stream_links_cache st) k = some entry →
        entry.data ≠ []) →
      (get_stream_links_fast st env sid dp t e).result = ResolveResult.ok [] c tm →
      ∀ env2 dp2 t2 e2, t ≤ t2 →
        (get_stream_links_fast (get_stream_links_fast st env sid dp t e).state
          env2 sid dp2 t2 e2).calls ≠ []) := by
  refine ⟨fast_empty_stream_unchanged, fast_inv_preserved, ?_⟩
  intro st env sid dp t e c tm hinv hres env2 dp2 t2 e2 ht
  cases hent1 : dictGet (get_stream_links_fast st env sid dp t e).state.stream_links_cache sid with
  | none =>
    rw [fast_miss _ env2 sid dp2 t2 e2 hent1]
    exact fresh_calls_ne_nil _ env2 sid dp2 t2 e2
  | some entry =>
    have hent0 : dictGet st.stream_links_cache sid = some entry := by
      rw [← fast_empty_stream_unchanged st env sid dp t e c tm hres]
      exact hent1
    have hstale : ¬ (t - entry.timestamp < 1800) := by
      intro hlt
      have hhit := fast_hit st env sid dp t e entry hent0 hlt
      rw [hhit] at hres
      dsimp only at hres
      injection hres with h1 h2 h3
      exact (hinv sid entry hent0) h1
    have hstale2 : ¬ (t2 - entry.timestamp < 1800) := by omega
    rw [fast_stale _ env2 sid dp2 t2 e2 entry hent1 hstale2]
    exact fresh_calls_ne_nil _ env2 sid dp2 t2 e2

/-- Witness for C4 at a concrete empty resolution. -/
theorem empty_streams_never_cached_witness :
    (get_stream_links_fast stEmpty envEmpty "9" (some "p") 0 3).state.stream_links_cache =
      ([] : List (String × StreamCacheEntry)) :=
  empty_streams_never_cached.1 stEmpty envEmpty "9" (some "p") 0 3 false 3 rfl

/-- Claim C5: when a `get_stream_links_fast` call returns a non-empty
qualities list, the stream cache holds that list under the id, and any
second call within 30 minutes of the stored timestamp returns exactly the
same list with `cached=true` and `timing_ms=0`, leaving the state untouched
and issuing no network request (the call log is empty, for every network
environment). -/
theorem stream_cache_hit_within_ttl (st : ServerState) (env : ResolveEnv) (sid : String)
    (dp : Option String) (t e : Int) (qs : List Quality) (c : Bool) (tm : Int)
    (hres : (get_stream_links_fast st env sid dp t e).result = ResolveResult.ok qs c tm)
    (hne : qs ≠ []) :
    ∃ entry : StreamCacheEntry,
      dictGet (get_stream_links_fast st env sid dp t e).state.stream_links_cache sid =
        some entry ∧ entry.data = qs ∧
      ∀ env2 dp2 t2 e2, t2 - entry.timestamp < 1800 →
        get_stream_links_fast (get_stream_links_fast st env sid dp t e).state
            env2 sid dp2 t2 e2 =
          ⟨ResolveResult.ok qs true 0, (get_stream_links_fast st env sid dp t e).state,
           []⟩ := by
  rcases fast_cases st env sid dp t e with ⟨entry, hent, httl, heq⟩ | heq
  · rw [heq] at hres ⊢
    dsimp only at hres ⊢
    injection hres with h1 h2 h3
    subst h1
    refine ⟨entry, hent, rfl, ?_⟩
    intro env2 dp2 t2 e2 httl2
    exact fast_hit st env2 sid dp2 t2 e2 entry hent httl2
  · rw [heq] at hres ⊢
    rcases fresh_stream_cases st env sid dp t e with ⟨⟨m2, hres2⟩, hstream⟩ |
        ⟨ref, dls, items, hp, hres2, hrest⟩
    · rw [hres2] at hres
      cases hres
    · rw [hres2] at hres
      injection hres with h1 h2 h3
      rcases hrest with ⟨hq, hstream⟩ | ⟨hq, hstream⟩
      · rw [h1] at hq
        exact absurd hq hne
      · refine ⟨⟨pySortQualityDesc items, t⟩, ?_, h1, ?_⟩
        · rw [hstream]
          exact dictGet_dictSet_self _ _ _
        · intro env2 dp2 t2 e2 httl2
          have hent2 : dictGet
              (get_stream_links_fresh st env sid dp t e).state.stream_links_cache sid =
              some ⟨pySortQualityDesc items, t⟩ := by
            rw [hstream]
            exact dictGet_dictSet_self _ _ _
          have hh := fast_hit (get_stream_links_fresh st env sid dp t e).state
            env2 sid dp2 t2 e2 ⟨pySortQualityDesc items, t⟩ hent2 httl2
          rw [hh, h1]

/-- Witness for C5: a concrete fresh resolution stores its non-empty list. -/
theorem stream_cache_hit_within_ttl_witness :
    ∃ entry : StreamCacheEntry,
      dictGet (get_stream_links_fast stEmpty envOk1 "5" (some "p") 0 4).state.stream_links_cache
        "5" = some entry ∧ entry.data ≠ [] := by
  obtain ⟨entry, h1, h2, h3⟩ :=
    stream_cache_hit_within_ttl stEmpty envOk1 "5" (some "p") 0 4 _ _ _ rfl (by decide)
  refine ⟨entry, h1, ?_⟩
  rw [h2]
  decide

/-- A fresh `ok` result comes from the downloads list actually obtained by
the retry chain: the first component of `primaryAndFallback` (a function of
the environment) is `Except.ok dls`, those `dls` parse successfully, and the
result is their stable descending sort. -/
theorem fresh_ok_downloads (st : ServerState) (env : ResolveEnv) (sid : String)
    (dp : Option String) (t e : Int) (qs : List Quality) (c : Bool) (tm : Int)
    (hres : (get_stream_links_fresh st env sid dp t e).result = ResolveResult.ok qs c tm) :
    ∃ dls items,
      (primaryAndFallback env
        (get_absolute_url ("/movies/" ++ (resolveDetail st env sid dp).path))).1 =
        Except.ok dls ∧
      parse_downloads (get_absolute_url ("/movies/" ++ (resolveDetail st env sid dp).path))
        dls = Except.ok items ∧
      qs = pySortQualityDesc items := by
  unfold get_stream_links_fresh at hres
  dsimp only at hres
  split at hres
  · rename_i dls acalls heq
    rcases finish_cases { st with detail_path_cache := (resolveDetail st env sid dp).cache }
        sid (get_absolute_url ("/movies/" ++ (resolveDetail st env sid dp).path)) dls t e
        ((if (resolveDetail st env sid dp).fetched then [NetCall.detail (detail_url sid)]
          else []) ++ acalls) with
        ⟨msg, hfin⟩ | ⟨items, hp, hrest⟩
    · rw [hfin] at hres
      cases hres
    · refine ⟨dls, items, ?_, hp, ?_⟩
      · rw [heq]
      · rcases hrest with ⟨hq, hfin⟩ | ⟨hq, hfin⟩ <;> rw [hfin] at hres <;>
          (injection hres with h1 h2 h3; exact h1.symm)
  · rename_i msg acalls heq
    dsimp only at hres
    cases hres

/-- Claim C6: every freshly resolved qualities list is the stable descending
sort, by the `quality` field, of the items parsed from the downloads list
that the retry chain actually obtained (`(primaryAndFallback env ref).1`,
a function of the environment, pins `dls` to the real network payload): the
result is pairwise descending, a permutation of the parsed items, and for
every quality value the equal-quality descriptors appear in exactly their
parsed order — which is the downloads-list order, by the order-preserving
`Forall₂`.  In addition every fresh result is pairwise descending, and the
concrete resolver run whose downloads carry qualities [480, 1080, 720]
returns them as [1080, 720, 480]. -/
theorem qualities_sorted_desc_stable :
    (∀ st env sid dp t e qs tm dls,
      (get_stream_links_fast st env sid dp t e).result = ResolveResult.ok qs false tm →
      (primaryAndFallback env
        (get_absolute_url ("/movies/" ++ (resolveDetail st env sid dp).path))).1 =
        Except.ok dls →
      ∃ items,
        parse_downloads (get_absolute_url ("/movies/" ++ (resolveDetail st env sid dp).path))
          dls = Except.ok items ∧
        List.Forall₂ (fun d qd =>
          parse_item (get_absolute_url ("/movies/" ++ (resolveDetail st env sid dp).path)) d =
            Except.ok qd) dls items ∧
        qs = pySortQualityDesc items ∧
        List.Pairwise (fun a b => b.quality ≤ a.quality) qs ∧
        qs.Perm items ∧
        (∀ q : Int, qs.filter (fun z => z.quality == q) =
          items.filter (fun z => z.quality == q))) ∧
    (∀ st env sid dp t e qs tm,
      (get_stream_links_fast st env sid dp t e).result = ResolveResult.ok qs false tm →
      List.Pairwise (fun a b => b.quality ≤ a.quality) qs) ∧
    ((match (get_stream_links_fast stEmpty envSort "6" (some "p") 0 4).result with
      | ResolveResult.ok qs _ _ => qs.map Quality.quality
      | ResolveResult.fail _ _ => []) = [1080, 720, 480]) := by
  refine ⟨?_, ?_, ?_⟩
  · intro st env sid dp t e qs tm dls hres hdl
    rcases fast_cases st env sid dp t e with ⟨entry, hent, httl, heq⟩ | heq
    · rw [heq] at hres
      dsimp only at hres
      injection hres with h1 h2 h3
      cases h2
    · rw [heq] at hres
      obtain ⟨dls0, items, hpf, hparse, hqs⟩ :=
        fresh_ok_downloads st env sid dp t e qs false tm hres
      rw [hpf] at hdl
      injection hdl with hdl2
      subst hdl2
      refine ⟨items, hparse, parse_downloads_forall2 _ _ _ hparse, hqs, ?_, ?_, ?_⟩
      · rw [hqs]
        exact pySortQualityDesc_sorted items
      · rw [hqs]
        exact pySortQualityDesc_perm items
      · intro q
        rw [hqs]
        exact pySortQualityDesc_filter items q
  · intro st env sid dp t e qs tm hres
    rcases fast_cases st env sid dp t e with ⟨entry, hent, httl, heq⟩ | heq
    · rw [heq] at hres
      dsimp only at hres
      injection hres with h1 h2 h3
      cases h2
    · rw [heq] at hres
      rcases fresh_stream_cases st env sid dp t e with ⟨⟨m2, hres2⟩, hstream⟩ |
          ⟨ref, dls, items, hp, hres2, hrest⟩
      · rw [hres2] at hres
        cases hres
      · rw [hres2] at hres
        injection hres with h1 h2 h3
        rw [← h1]
        exact pySortQualityDesc_sorted items
  · rfl

/-- Witness for C6: a concrete resolution whose network payload carries
qualities 480, 1080, 720 parses in that order and is returned as its stable
descending sort. -/
theorem qualities_sorted_desc_stable_witness :
    ∃ qs tm items,
      (get_stream_links_fast stEmpty envSort "6" (some "p") 0 4).result =
        ResolveResult.ok qs false tm ∧
      parse_downloads
        (get_absolute_url ("/movies/" ++ (resolveDetail stEmpty envSort "6" (some "p")).path))
        [⟨some "a", some 480, SizeVal.int 0⟩, ⟨some "b", some 1080, SizeVal.int 0⟩,
         ⟨some "c", some 720, SizeVal.int 0⟩] = Except.ok items ∧
      qs = pySortQualityDesc items ∧
      List.Pairwise (fun a b => b.quality ≤ a.quality) qs := by
  obtain ⟨items, hparse, hf2, hqs, hpw, hperm, hfilt⟩ :=
    qualities_sorted_desc_stable.1 stEmpty envSort "6" (some "p") 0 4 _ _
      [⟨some "a", some 480, SizeVal.int 0⟩, ⟨some "b", some 1080, SizeVal.int 0⟩,
       ⟨some "c", some 720, SizeVal.int 0⟩] rfl rfl
  exact ⟨_, _, items, rfl, hparse, hqs, hpw⟩

/-- Claim C7: on a cache miss, whenever the primary authenticated attempt
fails (including `No active session`), exactly one fallback request is made
— through the fresh unauthenticated client (`NetCall.fallback` is a fresh
`httpx` client carrying no cookies) with the desktop user agent and exactly
the Referer of the primary headers (the same `r` in `headers_clean r` and
`mobile_headers r`) — and when that fallback also fails, the surfaced error
is the primary attempt's message, not the fallback's. -/
theorem fallback_single_attempt_original_error (st : ServerState) (env : ResolveEnv)
    (sid : String) (dp : Option String) (t e : Int) (msg : String)
    (hmiss : dictGet (ServerState.stream_links_cache st) sid = none)
    (hfail : primaryErrorMsg env = some msg) :
    (∃ r, (get_stream_links_fast st env sid dp t e).calls.filter isFallbackCall =
        [NetCall.fallback download_url (headers_clean r)] ∧
      (env.session_active = true →
        (get_stream_links_fast st env sid dp t e).calls.filter isSessionCall =
          [NetCall.session download_url (mobile_headers r)])) ∧
    (fallbackFailed env.fallback = true →
      (get_stream_links_fast st env sid dp t e).result = ResolveResult.fail msg e) := by
  rw [fast_miss st env sid dp t e hmiss]
  obtain ⟨hfb, hsess, hboth⟩ := pf_spec env
    (get_absolute_url ("/movies/" ++ (resolveDetail st env sid dp).path)) msg hfail
  refine ⟨⟨get_absolute_url ("/movies/" ++ (resolveDetail st env sid dp).path), ?_, ?_⟩, ?_⟩
  · rw [fresh_calls_eq, List.filter_append, hfb]
    cases hf : (resolveDetail st env sid dp).fetched <;>
      simp [isFallbackCall, List.filter]
  · intro hs
    rw [fresh_calls_eq, List.filter_append, hsess hs]
    cases hf : (resolveDetail st env sid dp).fetched <;>
      simp [isSessionCall, List.filter]
  · intro hf
    exact fresh_result_fail st env sid dp t e msg (hboth hf)

/-- Witness for C7: with a failing session fetch and a failing fallback the
surfaced error is the primary one. -/
theorem fallback_single_attempt_original_error_witness :
    (get_stream_links_fast stEmpty envFail "7" (some "p") 0 2).result =
      ResolveResult.fail "primary boom" 2 :=
  (fallback_single_attempt_original_error stEmpty envFail "7" (some "p") 0 2
    "primary boom" rfl rfl).2 rfl

/-- Claim C8 is false as stated at empty-valued headers: an inbound
`Range` header that is present with an empty value is not forwarded
upstream, and an upstream `Content-Length` supplied with an empty value does
not appear in the proxy response. -/
theorem range_empty_not_forwarded :
    dictGet (stream_video [("User-Agent", "x")] (some "") 200 none none).upstream_headers
      "Range" = none ∧
    dictGet (stream_video [("User-Agent", "x")] none 200 (some "") none).resp_headers
      "Content-Length" = none := by
  exact ⟨rfl, rfl⟩

/-- Claim C8 (amended): headers with an empty value are treated as absent
(Python truthiness); with that proviso the proxy forwards the inbound
`Range` header verbatim exactly when present and non-empty, returns the
upstream status code unchanged, and its response carries `Content-Length` /
`Content-Range` with exactly the upstream's value exactly when the upstream
supplied them non-empty. -/
theorem proxy_header_forwarding (base : List (String × String)) (rng : Option String)
    (up_status : Nat) (cl cr : Option String)
    (hbase : dictGet base "Range" = none) :
    ((stream_video base rng up_status cl cr).status_code = up_status) ∧
    (∀ r, rng = some r → r ≠ "" →
      dictGet (stream_video base rng up_status cl cr).upstream_headers "Range" = some r) ∧
    ((rng = none ∨ rng = some "") →
      dictGet (stream_video base rng up_status cl cr).upstream_headers "Range" = none) ∧
    (∀ v, cl = some v → v ≠ "" →
      dictGet (stream_video base rng up_status cl cr).resp_headers "Content-Length" =
        some v) ∧
    ((cl = none ∨ cl = some "") →
      dictGet (stream_video base rng up_status cl cr).resp_headers "Content-Length" =
        none) ∧
    (∀ v, cr = some v → v ≠ "" →
      dictGet (stream_video base rng up_status cl cr).resp_headers "Content-Range" =
        some v) ∧
    ((cr = none ∨ cr = some "") →
      dictGet (stream_video base rng up_status cl cr).resp_headers "Content-Range" =
        none) := by
  unfold stream_video
  dsimp only
  refine ⟨rfl, ?_, ?_, ?_, ?_, ?_, ?_⟩
  · intro r hr hne
    subst hr
    dsimp only
    rw [if_pos hne]
    exact dictGet_dictSet_self base "Range" r
  · intro h
    rcases h with rfl | rfl
    · exact hbase
    · dsimp only
      rw [if_neg (by simp)]
      exact hbase
  · intro v hv hne
    subst hv
    dsimp only
    rw [if_pos hne]
    cases cr with
    | none => exact dictGet_dictSet_self _ _ _
    | some w =>
      dsimp only
      by_cases hw : w = ""
      · rw [if_neg (by simp [hw])]
        exact dictGet_dictSet_self _ _ _
      · rw [if_pos hw]
        rw [dictGet_dictSet_ne _ _ _ _ (by decide)]
        exact dictGet_dictSet_self _ _ _
  · intro h
    rcases h with rfl | rfl
    · dsimp only
      cases cr with
      | none => decide
      | some w =>
        dsimp only
        by_cases hw : w = ""
        · rw [if_neg (by simp [hw])]
          decide
        · rw [if_pos hw]
          rw [dictGet_dictSet_ne _ _ _ _ (by decide)]
          decide
    · dsimp only
      rw [if_neg (by simp)]
      cases cr with
      | none => decide
      | some w =>
        dsimp only
        by_cases hw : w = ""
        · rw [if_neg (by simp [hw])]
          decide
        · rw [if_pos hw]
          rw [dictGet_dictSet_ne _ _ _ _ (by decide)]
          decide
  · intro v hv hne
    subst hv
    dsimp only
    rw [if_pos hne]
    exact dictGet_dictSet_self _ _ _
  · intro h
    rcases h with rfl | rfl
    · dsimp only
      cases cl with
      | none => decide
      | some w =>
        dsimp only
        by_cases hw : w = ""
        · rw [if_neg (by simp [hw])]
          decide
        · rw [if_pos hw]
          rw [dictGet_dictSet_ne _ _ _ _ (by decide)]
          decide
    · dsimp only
      rw [if_neg (by simp)]
      cases cl with
      | none => decide
      | some w =>
        dsimp only
        by_cases hw : w = ""
        · rw [if_neg (by simp [hw])]
          decide
        · rw [if_pos hw]
          rw [dictGet_dictSet_ne _ _ _ _ (by decide)]
          decide

/-- Witness for the amended C8: `Range: bytes=100-199` is forwarded
verbatim, a 206 status is returned unchanged, and the upstream
`Content-Range` appears with its value. -/
theorem proxy_header_forwarding_witness :
    dictGet (stream_video [("User-Agent", "x")] (some "bytes=100-199") 206 none
        (some "bytes 100-199/500")).upstream_headers "Range" = some "bytes=100-199" ∧
    (stream_video [("User-Agent", "x")] (some "bytes=100-199") 206 none
        (some "bytes 100-199/500")).status_code = 206 ∧
    dictGet (stream_video [("User-Agent", "x")] (some "bytes=100-199") 206 none
        (some "bytes 100-199/500")).resp_headers "Content-Range" =
      some "bytes 100-199/500" := by
  have h := proxy_header_forwarding [("User-Agent", "x")] (some "bytes=100-199") 206 none
    (some "bytes 100-199/500") (by decide)
  exact ⟨h.2.1 "bytes=100-199" rfl (by decide), h.1,
    h.2.2.2.2.2.1 "bytes 100-199/500" rfl (by decide)⟩

/-- Claim C9: on every execution of the `iter_file` chunk iterator — normal
completion, an upstream error mid-stream, or consumer disconnection — the
upstream response is closed (`finally: await r.aclose()` runs on every exit
path), and nothing escapes the iterator except normal termination or the
generator machinery's own `GeneratorExit`: no `Exception` propagates. -/
theorem iter_file_closes_no_exception (events : List UpEvent) (disconnect : Option Nat) :
    (iter_file events disconnect).closed = true ∧
    ((iter_file events disconnect).outcome = ExitKind.normal ∨
     (iter_file events disconnect).outcome = ExitKind.genExit) := by
  refine ⟨rfl, ?_⟩
  unfold iter_file
  dsimp only
  cases h : (iter_file_body events disconnect []).2 with
  | normal => exact Or.inl rfl
  | exc m => exact Or.inl rfl
  | genExit => exact Or.inr rfl

/-- Claim C10: a failing `get_stream_links_fast` call returns the structured
failure dict — `success=false` with an error message and a `timing_ms`
number (it never raises: the model function is total, mirroring the outer
`except` of lines 223-226) — and leaves the stream-links cache, value and
timestamp of every entry, exactly as it was. -/
theorem resolve_failure_structured_no_cache_write (st : ServerState) (env : ResolveEnv)
    (sid : String) (dp : Option String) (t e : Int) (msg : String) (tm : Int)
    (hfail : (get_stream_links_fast st env sid dp t e).result = ResolveResult.fail msg tm) :
    tm = e ∧
    (get_stream_links_fast st env sid dp t e).state.stream_links_cache =
      st.stream_links_cache := by
  rcases fast_cases st env sid dp t e with ⟨entry, hent, httl, heq⟩ | heq
  · rw [heq] at hfail
    dsimp only at hfail
    cases hfail
  · rw [heq] at hfail ⊢
    rcases fresh_stream_cases st env sid dp t e with ⟨⟨m2, hres2⟩, hstream⟩ |
        ⟨ref, dls, items, hp, hres2, hrest⟩
    · rw [hres2] at hfail
      injection hfail with h1 h2
      exact ⟨h2.symm, hstream⟩
    · rw [hres2] at hfail
      cases hfail

/-- Witness for C10 at a concrete double failure. -/
theorem resolve_failure_structured_witness :
    (2 : Int) = 2 ∧
    (get_stream_links_fast stEmpty envFail "8" (some "p") 0 2).state.stream_links_cache =
      ([] : List (String × StreamCacheEntry)) :=
  resolve_failure_structured_no_cache_write stEmpty envFail "8" (some "p") 0 2
    "primary boom" 2 rfl
